import Mathlib

/-!
Verification development for the Go package `clog` (debuginn/go-cake).

A shallow embedding of the Go package `clog`: the level model (`utils.go`),
the console backend (`console.go`) and the registry / dispatcher
(`logger.go`), followed by theorems about them.

Modelling conventions

* Go `int` values are `Int` (skip depths, line numbers) or `Nat` (levels, which
  only ever hold the constants `DebugLevel..NoneLevel`).
* The package-level map `gLoggerMgr map[string]*LogInstance` is an association
  list of `(name, instance)` pairs that is passed explicitly; a lookup returns
  the first pair with the key, an insertion of an absent key adds one pair and a
  deletion removes every pair with the key.
* `LogInterface` is dynamic dispatch: the registry functions take the method
  table of the backend implementation as an argument, over a type of backend
  states.  A `nil` interface value is `none`; calling a method on it panics.
  Each entry owns its backend state (no two entries share one backend object).
* Every registry function returns the table afterwards, the backend methods it
  invoked (tagged with the entry name), the bytes written to the two console
  streams and the Go result (`nil`, an error value, or a panic).
* What the standard library and the runtime supply (host name, clock, caller
  frames, `fmt.Sprintf`, `filepath.Base`) is read from an explicit `Env`.
-/

set_option autoImplicit false

namespace Clog

/-! ## utils.go -/

def DebugLevel : Nat := 0
def InfoLevel : Nat := 1
def WarnLevel : Nat := 2
def FatalLevel : Nat := 3
def NoneLevel : Nat := 4

def TraceId : String := "traceId"
def LogDefSkipNum : Int := 6
def Console : String := "console"
def SourceAuto : String := "auto"
def LevelDebug : String := "debug"
def LevelInfo : String := "info"
def LevelWarn : String := "warn"
def LevelFatal : String := "fatal"
def LevelNone : String := "none"

def levelTextArray : List String := ["DEBUG", "INFO", "WARN", "FATAL"]

/-- The Go call `strings.ToLower`, on the letters `A`..`Z`; every other
character is kept. -/
def ToLower (s : String) : String := String.mk (s.data.map Char.toLower)

/-- The Go function `LevelFromStr` of utils.go. -/
def LevelFromStr (level : String) : Nat :=
  let levelLower := ToLower level
  if levelLower = LevelDebug then DebugLevel
  else if levelLower = LevelInfo then InfoLevel
  else if levelLower = LevelWarn then WarnLevel
  else if levelLower = LevelFatal then FatalLevel
  else if levelLower = LevelNone then NoneLevel
  else InfoLevel

/-- A value held in a Go `interface{}`, as far as the package tells values
apart: an `int`, an `int64`, a `string`, or a value of any other type, which
carries its `%v` rendering. -/
inductive Value where
  | int (i : Int)
  | int64 (i : Int)
  | str (s : String)
  | other (shown : String)
  deriving DecidableEq, Repr

/-- A Go `context.Context`: `none` is the nil context, `some kv` a context whose
values are the bindings `kv`, innermost first. -/
abbrev Context := Option (List (String × Value))

/-- What the runtime and the standard library supply to one call. -/
structure Env where
  /-- The result of `os.Hostname()`. -/
  Hostname : Except String String
  /-- The text `time.Now().Format("2006-01-02 15:04:05")`. -/
  Now : String
  /-- The call `runtime.Caller(skip)` with the function name of its `pc`:
  `none` when `ok` is false. -/
  Caller : Int → Option (String × String × Int)
  /-- The call `fmt.Sprintf(format, a...)`. -/
  Sprintf : String → List Value → String
  /-- The call `filepath.Base`. -/
  Base : String → String

/-- The Go function `Format` of utils.go. -/
def Format (env : Env) (format : String) (a : List Value) : String :=
  if a.length = 0 then format else env.Sprintf format a

/-- The Go function `GetRuntimeInfo` of utils.go. -/
def GetRuntimeInfo (env : Env) (skip : Int) : String × String × Int :=
  match env.Caller skip with
  | some (function, filename, lineno) => (function, filename, lineno)
  | none => ("???", "", 0)

/-- The Go function `FormatLog` of utils.go: the buffer after the loop over
`fields`, then the body and a newline. -/
def FormatLog (body : String) (fields : List String) : String :=
  (fields.foldl (fun buffer v => ((buffer ++ "[") ++ v) ++ "] ") "" ++ body) ++ "\n"

/-- The Go function `GetTraceId` of utils.go. -/
def GetTraceId (ctx : Context) : String :=
  match ctx with
  | none => ""
  | some kv =>
    match kv.lookup TraceId with
    | some (Value.int vi) => toString vi
    | some (Value.int64 vi) => toString vi
    | some (Value.str vs) => vs
    | some (Value.other shown) => shown
    | none => ""

/-! ## logger.go: types -/

/-- The Go struct `LoggerConfig`. -/
structure LoggerConfig where
  Level : String
  Source : String
  Service : String
  Skip : Int
  deriving DecidableEq, Repr

/-- The Go struct `LogInstance`; `logger = none` is a nil interface value. -/
structure LogInstance (σ : Type) where
  logger : Option σ
  enable : Bool
  initial : Bool
  source : String
  deriving DecidableEq, Repr

/-- One of the two console streams. -/
inductive Stream where
  | Stdout
  | Stderr
  deriving DecidableEq, Repr

/-- One call of `file.Write`: the stream and the bytes. -/
abbrev Write := Stream × String

/-- The method table of `LogInterface` (interface.go) over backend states `σ`:
each method returns the backend afterwards, and its error or its console writes
where it has any. -/
structure LogInterface (σ : Type) where
  Init : σ → Option LoggerConfig → σ × Option String
  Reopen : σ → σ × Option String
  SetLevel : σ → String → σ
  SetSkip : σ → Int → σ
  Fatal : σ → Context → String → List Value → σ × List Write
  Warn : σ → Context → String → List Value → σ × List Write
  Info : σ → Context → String → List Value → σ × List Write
  Debug : σ → Context → String → List Value → σ × List Write
  Close : σ → σ

/-- A backend method invocation, with its arguments. -/
inductive Call where
  | Init (config : Option LoggerConfig)
  | Reopen
  | SetLevel (level : String)
  | SetSkip (skip : Int)
  | Fatal (ctx : Context) (format : String) (a : List Value)
  | Warn (ctx : Context) (format : String) (a : List Value)
  | Info (ctx : Context) (format : String) (a : List Value)
  | Debug (ctx : Context) (format : String) (a : List Value)
  | Close
  deriving DecidableEq, Repr

/-- How a Go function of the registry ends: it returns a nil error, it returns an
error value with a message, or it panics on a nil interface. -/
inductive Result where
  | ok
  | error (msg : String)
  | panic
  deriving DecidableEq, Repr

/-- The table `gLoggerMgr`. -/
abbrev Registry (σ : Type) := List (String × LogInstance σ)

/-- The map read `gLoggerMgr[name]`. -/
def Registry.get {σ : Type} (m : Registry σ) (name : String) : Option (LogInstance σ) :=
  List.lookup name m

/-- A write through the pointer `gLoggerMgr[name]`: the instance under `name`
becomes `inst`. -/
def Registry.set {σ : Type} (m : Registry σ) (name : String) (inst : LogInstance σ) :
    Registry σ :=
  m.map (fun e => if e.1 = name then (e.1, inst) else e)

/-- The map write `gLoggerMgr[name] = inst` for a key that is absent. -/
def Registry.insert {σ : Type} (m : Registry σ) (name : String) (inst : LogInstance σ) :
    Registry σ :=
  (name, inst) :: m

/-- The Go builtin `delete(gLoggerMgr, name)`. -/
def Registry.delete {σ : Type} (m : Registry σ) (name : String) : Registry σ :=
  m.filter (fun e => decide (e.1 ≠ name))

/-- What one registry function did: the table afterwards, the backend methods it
invoked in order, the console writes, and how it ended. -/
structure Outcome (σ : Type) where
  mgr : Registry σ
  calls : List (String × Call) := []
  writes : List Write := []
  result : Result
  deriving DecidableEq, Repr

/-! ## console.go -/

/-- The error value `ConsoleLogInitFailed`. -/
def ConsoleLogInitFailed : String := "init XConsoleLog failed, not found level"

/-- The Go struct `ConsoleLog`. -/
structure ConsoleLog where
  level : Nat
  skip : Int
  hostname : String
  service : String
  deriving DecidableEq, Repr

/-- The Go type `Brush`. -/
abbrev Brush := String → String

/-- The Go function `NewBrush`. -/
def NewBrush (color : String) : Brush :=
  let pre := "\x1b["
  let reset := "\x1b[0m"
  fun text => pre ++ color ++ "m" ++ text ++ reset

/-- The Go slice `colors`: white, debug, info, warn, fatal. -/
def colors : List Brush :=
  [NewBrush "1;37", NewBrush "1;36", NewBrush "1;33", NewBrush "1;31", NewBrush "1;32"]

/-- The Go function `NewConsoleLog`: every field but `skip` has its zero value. -/
def NewConsoleLog : ConsoleLog :=
  { level := 0, skip := LogDefSkipNum, hostname := "", service := "" }

/-- The method `(*ConsoleLog).Init`. -/
def ConsoleLog.Init (env : Env) (c : ConsoleLog) (config : Option LoggerConfig) :
    ConsoleLog × Option String :=
  match config with
  | none => (c, some ConsoleLogInitFailed)
  | some config =>
    let c := { c with level := LevelFromStr config.Level }
    let c := { c with service := config.Service }
    let c := if config.Skip > 0 then { c with skip := config.Skip } else c
    match env.Hostname with
    | Except.error err => (c, some err)
    | Except.ok hostname => ({ c with hostname := hostname }, none)

/-- The method `(*ConsoleLog).Reopen`. -/
def ConsoleLog.Reopen (c : ConsoleLog) : ConsoleLog × Option String := (c, none)

/-- The method `(*ConsoleLog).SetLevel`. -/
def ConsoleLog.SetLevel (c : ConsoleLog) (level : String) : ConsoleLog :=
  { c with level := LevelFromStr level }

/-- The method `(*ConsoleLog).SetSkip`. -/
def ConsoleLog.SetSkip (c : ConsoleLog) (skip : Int) : ConsoleLog :=
  { c with skip := skip }

/-- The method `(*ConsoleLog).write`: one `file.Write` of the composed line (its
result is discarded by the source). -/
def ConsoleLog.write (env : Env) (c : ConsoleLog) (ctx : Context) (level : Nat)
    (msg : String) : List Write :=
  let color := colors.getD level id
  let levelText := color (levelTextArray.getD level "")
  let t := env.Now
  let traceId := GetTraceId ctx
  let logText := FormatLog msg [t, c.service, c.hostname, levelText, traceId]
  let file := if level ≥ WarnLevel then Stream.Stderr else Stream.Stdout
  [(file, logText)]

/-- The method `(*ConsoleLog).Fatal`. -/
def ConsoleLog.Fatal (env : Env) (c : ConsoleLog) (ctx : Context) (format : String)
    (a : List Value) : ConsoleLog × List Write :=
  if c.level > FatalLevel then (c, [])
  else
    let logText := Format env format a
    let (function, filename, lineno) := GetRuntimeInfo env c.skip
    let color := colors.getD FatalLevel id
    let logText :=
      color ("[" ++ function ++ ":" ++ env.Base filename ++ ":" ++ toString lineno ++ "] " ++ logText)
    (c, c.write env ctx FatalLevel logText)

/-- The method `(*ConsoleLog).Warn`. -/
def ConsoleLog.Warn (env : Env) (c : ConsoleLog) (ctx : Context) (format : String)
    (a : List Value) : ConsoleLog × List Write :=
  if c.level > WarnLevel then (c, [])
  else
    let logText := Format env format a
    let (function, filename, lineno) := GetRuntimeInfo env c.skip
    let color := colors.getD WarnLevel id
    let logText :=
      color ("[" ++ function ++ ":" ++ env.Base filename ++ ":" ++ toString lineno ++ "] " ++ logText)
    (c, c.write env ctx WarnLevel logText)

/-- The method `(*ConsoleLog).Info`. -/
def ConsoleLog.Info (env : Env) (c : ConsoleLog) (ctx : Context) (format : String)
    (a : List Value) : ConsoleLog × List Write :=
  if c.level > InfoLevel then (c, [])
  else
    let logText := Format env format a
    let (function, filename, lineno) := GetRuntimeInfo env c.skip
    let color := colors.getD InfoLevel id
    let logText :=
      color ("[" ++ function ++ ":" ++ env.Base filename ++ ":" ++ toString lineno ++ "] " ++ logText)
    (c, c.write env ctx InfoLevel logText)

/-- The method `(*ConsoleLog).Debug`. -/
def ConsoleLog.Debug (env : Env) (c : ConsoleLog) (ctx : Context) (format : String)
    (a : List Value) : ConsoleLog × List Write :=
  if c.level > DebugLevel then (c, [])
  else
    let logText := Format env format a
    let (function, filename, lineno) := GetRuntimeInfo env c.skip
    let color := colors.getD DebugLevel id
    let logText :=
      color ("[" ++ function ++ ":" ++ env.Base filename ++ ":" ++ toString lineno ++ "] " ++ logText)
    (c, c.write env ctx DebugLevel logText)

/-- The method `(*ConsoleLog).Close`. -/
def ConsoleLog.Close (c : ConsoleLog) : ConsoleLog := c

/-- The console backend as a `LogInterface`. -/
def consoleLog (env : Env) : LogInterface ConsoleLog :=
  { Init := ConsoleLog.Init env
    Reopen := ConsoleLog.Reopen
    SetLevel := ConsoleLog.SetLevel
    SetSkip := ConsoleLog.SetSkip
    Fatal := ConsoleLog.Fatal env
    Warn := ConsoleLog.Warn env
    Info := ConsoleLog.Info env
    Debug := ConsoleLog.Debug env
    Close := ConsoleLog.Close }

/-! ## logger.go: the registry functions -/

section RegistryFunctions

variable {σ : Type}

/-- The Go function `initLogger`. -/
def initLogger (L : LogInterface σ) (m : Registry σ) (name : String)
    (config : Option LoggerConfig) (source : String) : Outcome σ :=
  match m.get name with
  | none => { mgr := m, result := Result.error ("not found logger[" ++ name ++ "]") }
  | some inst =>
    match inst.logger with
    | none => { mgr := m, result := Result.panic }
    | some logger =>
      let (logger, err) := L.Init logger config
      let inst := { inst with logger := some logger }
      match err with
      | some e =>
        { mgr := m.set name inst, calls := [(name, Call.Init config)], result := Result.error e }
      | none =>
        let inst :=
          if source.length > 0 then { inst with source := source }
          else { inst with source := "" }
        let inst := { inst with enable := true }
        let inst := { inst with initial := true }
        { mgr := m.set name inst, calls := [(name, Call.Init config)], result := Result.ok }

/-- The loop body of `InitLogger` ("close auto inject logger") on one entry. -/
def closeAuto (v : LogInstance σ) : LogInstance σ :=
  if v.logger.isNone || !v.enable then v
  else if v.source = SourceAuto then { v with enable := false }
  else v

/-- The Go function `InitLogger`. -/
def InitLogger (L : LogInterface σ) (m : Registry σ) (name : String)
    (config : Option LoggerConfig) : Outcome σ :=
  let r := initLogger L m name config ""
  match r.result with
  | Result.ok => { r with mgr := r.mgr.map (fun e => (e.1, closeAuto e.2)) }
  | _ => r

/-- The Go function `RegisterLogger`. -/
def RegisterLogger (m : Registry σ) (name : String) (logger : Option σ) : Outcome σ :=
  match m.get name with
  | some _ => { mgr := m, result := Result.error ("duplicate logger: " ++ name) }
  | none =>
    { mgr := m.insert name { logger := logger, enable := false, initial := false, source := "" },
      result := Result.ok }

set_option linter.unusedVariables false in
/-- The Go function `EnableLogger`. -/
def EnableLogger (m : Registry σ) (name : String) (enable : Bool) : Outcome σ :=
  match m.get name with
  | none => { mgr := m, result := Result.error ("not found logger: " ++ name) }
  | some inst =>
    if !inst.initial then
      { mgr := m.set name { inst with enable := false }, result := Result.ok }
    else
      { mgr := m.set name { inst with enable := true }, result := Result.ok }

/-- The Go function `GetLogger`: the returned `logger` and the outcome. -/
def GetLogger (m : Registry σ) (name : String) : Option σ × Outcome σ :=
  match m.get name with
  | none => (none, { mgr := m, result := Result.error ("not found logger: " ++ name) })
  | some inst => (inst.logger, { mgr := m, result := Result.ok })

/-- The Go function `UnregisterLogger`.  The table only ever holds non-nil
`*LogInstance` pointers, so `instance != nil` is true on every found entry. -/
def UnregisterLogger (L : LogInterface σ) (m : Registry σ) (name : String) : Outcome σ :=
  match m.get name with
  | none => { mgr := m, result := Result.error ("not found logger: " ++ name) }
  | some inst =>
    match inst.logger with
    | none => { mgr := m, result := Result.panic }
    | some logger =>
      let m := m.set name { inst with logger := some (L.Close logger) }
      { mgr := m.delete name, calls := [(name, Call.Close)], result := Result.ok }

/-- The loop of `Reopen` from the entries `m` on, with the `errMsg` so far: the
entries afterwards, the backend calls and the final `errMsg`. -/
def reopenLoop (L : LogInterface σ) :
    Registry σ → String → Registry σ × List (String × Call) × String
  | [], errMsg => ([], [], errMsg)
  | (k, v) :: rest, errMsg =>
    match v.logger with
    | none =>
      let (rest, calls, errMsg) := reopenLoop L rest errMsg
      ((k, v) :: rest, calls, errMsg)
    | some logger =>
      if !v.enable then
        let (rest, calls, errMsg) := reopenLoop L rest errMsg
        ((k, v) :: rest, calls, errMsg)
      else
        let (logger, rerr) := L.Reopen logger
        let errMsg :=
          match rerr with
          | some e => errMsg ++ ("logger: " ++ k ++ " reload failed, err:" ++ e ++ " \n")
          | none => errMsg
        let (rest, calls, errMsg) := reopenLoop L rest errMsg
        ((k, { v with logger := some logger }) :: rest, (k, Call.Reopen) :: calls, errMsg)

/-- The Go function `Reopen`: the error it returns is never nil. -/
def Reopen (L : LogInterface σ) (m : Registry σ) : Outcome σ :=
  let (m, calls, errMsg) := reopenLoop L m ""
  { mgr := m, calls := calls, result := Result.error errMsg }

/-- The loop `for _, v := range gLoggerMgr` shared by `SetLevelAll`, `Close` and
the four verbs: entries with a nil logger or not enabled are skipped, on the
others the backend method `step` runs, recorded as `call`. -/
def rangeEnabled (step : σ → σ × List Write) (call : Call) :
    Registry σ → Registry σ × List (String × Call) × List Write
  | [] => ([], [], [])
  | (k, v) :: rest =>
    let (rest, calls, writes) := rangeEnabled step call rest
    match v.logger with
    | none => ((k, v) :: rest, calls, writes)
    | some logger =>
      if !v.enable then ((k, v) :: rest, calls, writes)
      else
        let (logger, w) := step logger
        ((k, { v with logger := some logger }) :: rest, (k, call) :: calls, w ++ writes)

/-- The Go function `SetLevelAll`. -/
def SetLevelAll (L : LogInterface σ) (m : Registry σ) (level : String) : Outcome σ :=
  let (m, calls, writes) := rangeEnabled (fun b => (L.SetLevel b level, [])) (Call.SetLevel level) m
  { mgr := m, calls := calls, writes := writes, result := Result.ok }

/-- The Go function `SetLevel`. -/
def SetLevel (L : LogInterface σ) (m : Registry σ) (name level : String) : Outcome σ :=
  match m.get name with
  | none => { mgr := m, result := Result.error ("not found logger: " ++ name) }
  | some inst =>
    match inst.logger with
    | none => { mgr := m, result := Result.panic }
    | some logger =>
      { mgr := m.set name { inst with logger := some (L.SetLevel logger level) },
        calls := [(name, Call.SetLevel level)], result := Result.ok }

/-- The Go function `Fatal` of logger.go. -/
def Fatal (L : LogInterface σ) (m : Registry σ) (ctx : Context) (format : String)
    (a : List Value) : Outcome σ :=
  let (m, calls, writes) := rangeEnabled (fun b => L.Fatal b ctx format a) (Call.Fatal ctx format a) m
  { mgr := m, calls := calls, writes := writes, result := Result.ok }

/-- The Go function `Warn` of logger.go. -/
def Warn (L : LogInterface σ) (m : Registry σ) (ctx : Context) (format : String)
    (a : List Value) : Outcome σ :=
  let (m, calls, writes) := rangeEnabled (fun b => L.Warn b ctx format a) (Call.Warn ctx format a) m
  { mgr := m, calls := calls, writes := writes, result := Result.ok }

/-- The Go function `Info` of logger.go. -/
def Info (L : LogInterface σ) (m : Registry σ) (ctx : Context) (format : String)
    (a : List Value) : Outcome σ :=
  let (m, calls, writes) := rangeEnabled (fun b => L.Info b ctx format a) (Call.Info ctx format a) m
  { mgr := m, calls := calls, writes := writes, result := Result.ok }

/-- The Go function `Debug` of logger.go. -/
def Debug (L : LogInterface σ) (m : Registry σ) (ctx : Context) (format : String)
    (a : List Value) : Outcome σ :=
  let (m, calls, writes) := rangeEnabled (fun b => L.Debug b ctx format a) (Call.Debug ctx format a) m
  { mgr := m, calls := calls, writes := writes, result := Result.ok }

/-- The Go function `Close` of logger.go. -/
def Close (L : LogInterface σ) (m : Registry σ) : Outcome σ :=
  let (m, calls, writes) := rangeEnabled (fun b => (L.Close b, [])) Call.Close m
  { mgr := m, calls := calls, writes := writes, result := Result.ok }

end RegistryFunctions

/-- The two package initialisers in file order, from the empty table: the
`init` of console.go, then the `init` of logger.go (both discard the error). -/
def packageInit (env : Env) : Registry ConsoleLog :=
  let m := (RegisterLogger [] Console (some NewConsoleLog)).mgr
  let config : LoggerConfig := { Level := LevelDebug, Source := "", Service := "", Skip := 0 }
  (initLogger (consoleLog env) m Console (some config) SourceAuto).mgr

/-! ## Vocabulary for the statements -/

/-- The four emit verbs. -/
inductive Verb where
  | Fatal
  | Warn
  | Info
  | Debug
  deriving DecidableEq, Repr

/-- The level constant of a verb. -/
def Verb.level : Verb → Nat
  | Verb.Fatal => FatalLevel
  | Verb.Warn => WarnLevel
  | Verb.Info => InfoLevel
  | Verb.Debug => DebugLevel

/-- The backend call a verb makes. -/
def Verb.call (v : Verb) (ctx : Context) (format : String) (a : List Value) : Call :=
  match v with
  | Verb.Fatal => Call.Fatal ctx format a
  | Verb.Warn => Call.Warn ctx format a
  | Verb.Info => Call.Info ctx format a
  | Verb.Debug => Call.Debug ctx format a

/-- The console method of a verb. -/
def ConsoleLog.emit (env : Env) (v : Verb) (c : ConsoleLog) (ctx : Context)
    (format : String) (a : List Value) : ConsoleLog × List Write :=
  match v with
  | Verb.Fatal => c.Fatal env ctx format a
  | Verb.Warn => c.Warn env ctx format a
  | Verb.Info => c.Info env ctx format a
  | Verb.Debug => c.Debug env ctx format a

/-- The dispatcher function of a verb. -/
def dispatch {σ : Type} (L : LogInterface σ) (v : Verb) (m : Registry σ) (ctx : Context)
    (format : String) (a : List Value) : Outcome σ :=
  match v with
  | Verb.Fatal => Fatal L m ctx format a
  | Verb.Warn => Warn L m ctx format a
  | Verb.Info => Info L m ctx format a
  | Verb.Debug => Debug L m ctx format a

/-- A table as the Go program can hold it: the keys of a map are distinct, and
an enabled entry has a backend (`initLogger` is the only place that sets
`enable = true`, after `Init` ran on the backend, which panics on nil). -/
def Registry.Valid {σ : Type} (m : Registry σ) : Prop :=
  (m.map Prod.fst).Nodup ∧ ∀ e ∈ m, e.2.enable = true → e.2.logger.isSome = true

instance {σ : Type} (m : Registry σ) : Decidable m.Valid := by
  unfold Registry.Valid; infer_instance

/-- The characters `t` spell the characters `name` with any of them in upper
case. -/
def caseVariantChars : List Char → List Char → Bool
  | [], [] => true
  | x :: t, y :: name => (x == y || x == y.toUpper) && caseVariantChars t name
  | _, _ => false

/-- `t` spells `name` with any of its letters in upper case. -/
def CaseVariant (t name : String) : Prop := caseVariantChars t.data name.data = true

instance (t name : String) : Decidable (CaseVariant t name) := by
  unfold CaseVariant; infer_instance

/-- The recognised level names. -/
def levelNames : List String := [LevelDebug, LevelInfo, LevelWarn, LevelFatal, LevelNone]

/-- What a loop over the table does to one instance when it runs the backend
method `step` on every entry with a backend and `enable` set. -/
def LogInstance.onEnabled {σ : Type} (step : σ → σ) (v : LogInstance σ) : LogInstance σ :=
  match v.logger with
  | none => v
  | some logger => if !v.enable then v else { v with logger := some (step logger) }

/-- An instance in a state the program can produce: enabled only once
initialised, initialised only with a backend. -/
def LogInstance.Good {σ : Type} (v : LogInstance σ) : Prop :=
  (v.enable = true → v.initial = true) ∧ (v.initial = true → v.logger.isSome = true)

/-- The invariant of the table: distinct keys, every instance `Good`. -/
def Registry.Inv {σ : Type} (m : Registry σ) : Prop :=
  (m.map Prod.fst).Nodup ∧ ∀ e ∈ m, e.2.Good

/-- One call of the package's API (with the internal `initLogger`). -/
inductive Op (σ : Type) where
  | RegisterLogger (name : String) (logger : Option σ)
  | initLogger (name : String) (config : Option LoggerConfig) (source : String)
  | InitLogger (name : String) (config : Option LoggerConfig)
  | EnableLogger (name : String) (enable : Bool)
  | GetLogger (name : String)
  | UnregisterLogger (name : String)
  | Reopen
  | SetLevelAll (level : String)
  | SetLevel (name level : String)
  | Emit (verb : Verb) (ctx : Context) (format : String) (a : List Value)
  | Close

/-- The outcome of one call on the table `m`. -/
def Op.run {σ : Type} (L : LogInterface σ) (m : Registry σ) : Op σ → Outcome σ
  | Op.RegisterLogger name logger => Clog.RegisterLogger m name logger
  | Op.initLogger name config source => Clog.initLogger L m name config source
  | Op.InitLogger name config => Clog.InitLogger L m name config
  | Op.EnableLogger name enable => Clog.EnableLogger m name enable
  | Op.GetLogger name => (Clog.GetLogger m name).2
  | Op.UnregisterLogger name => Clog.UnregisterLogger L m name
  | Op.Reopen => Clog.Reopen L m
  | Op.SetLevelAll level => Clog.SetLevelAll L m level
  | Op.SetLevel name level => Clog.SetLevel L m name level
  | Op.Emit verb ctx format a => dispatch L verb m ctx format a
  | Op.Close => Clog.Close L m

/-- The tables the program can reach from the empty one. -/
inductive Reachable {σ : Type} (L : LogInterface σ) : Registry σ → Prop where
  | empty : Reachable L []
  | step (m : Registry σ) (op : Op σ) : Reachable L m → Reachable L (op.run L m).mgr

/-- The backend method of a verb. -/
def LogInterface.method {σ : Type} (L : LogInterface σ) (verb : Verb) :
    σ → Context → String → List Value → σ × List Write :=
  match verb with
  | Verb.Fatal => L.Fatal
  | Verb.Warn => L.Warn
  | Verb.Info => L.Info
  | Verb.Debug => L.Debug

/-- The level text of a verb, as it is printed. -/
def Verb.text : Verb → String
  | Verb.Fatal => "FATAL"
  | Verb.Warn => "WARN"
  | Verb.Info => "INFO"
  | Verb.Debug => "DEBUG"

/-- The test `v.logger == nil || !v.enable` of the loops is false: the entry
has a backend and `enable` is set. -/
def LogInstance.reached {σ : Type} (v : LogInstance σ) : Bool :=
  v.logger.isSome && v.enable

/-- The segment `Reopen` adds to `errMsg` for the pair `e`: none when the pair is
skipped or its backend `Reopen` returns nil. -/
def reopenFailure {σ : Type} (L : LogInterface σ) (e : String × LogInstance σ) :
    Option String :=
  match e.2.logger with
  | none => none
  | some logger =>
    if !e.2.enable then none
    else
      match (L.Reopen logger).2 with
      | some err => some ("logger: " ++ e.1 ++ " reload failed, err:" ++ err ++ " \n")
      | none => none

/-- The text `line` contains the text `x` as a run of consecutive characters. -/
def Contains (line x : String) : Prop := x.data <:+: line.data

instance (line x : String) : Decidable (Contains line x) := by
  unfold Contains; infer_instance

/-- The decimal text of an integer: its digits in base 10, after a `-` when it
is negative. -/
def decimal (i : Int) : String :=
  if 0 ≤ i then (Nat.toDigits 10 i.toNat).asString
  else "-" ++ (Nat.toDigits 10 (-i).toNat).asString

/-- The enabled, initialised and source fields of an instance, and whether it
has a backend. -/
def LogInstance.fields {σ : Type} (v : LogInstance σ) : Bool × Bool × Bool × String :=
  (v.logger.isSome, v.enable, v.initial, v.source)

/-- The calls that can set `enable = true` on the entry `name`: `EnableLogger`,
`initLogger` and `InitLogger` on that name. -/
def Op.enables {σ : Type} (name : String) : Op σ → Bool
  | Op.EnableLogger n _ => n == name
  | Op.initLogger n _ _ => n == name
  | Op.InitLogger n _ => n == name
  | _ => false

/-! ## Concrete data for the worked instances -/

/-- An environment in which the host name resolves. -/
def demoEnv : Env :=
  { Hostname := Except.ok "host1"
    Now := "2024-05-06 07:08:09"
    Caller := fun _ => some ("main.run", "/srv/app/main.go", 42)
    Sprintf := fun format _ => format
    Base := fun _ => "main.go" }

/-- A console backend after `Init` with level "warn". -/
def demoConsole : ConsoleLog :=
  { level := WarnLevel, skip := LogDefSkipNum, hostname := "host1", service := "svc1" }

/-- The console backend after the package initialisers ran. -/
def demoAuto : ConsoleLog :=
  { level := DebugLevel, skip := LogDefSkipNum, hostname := "host1", service := "" }

/-- A configuration with level "warn". -/
def demoWarnConfig : LoggerConfig :=
  { Level := "warn", Source := "", Service := "svc1", Skip := 0 }

/-- A table with the auto-initialised console entry (enabled), a registered
entry `file` that was never initialised and an initialised, enabled entry
`real`. -/
def demoMgr : Registry ConsoleLog :=
  [ ("file", { logger := some NewConsoleLog, enable := false, initial := false, source := "" }),
    ("real", { logger := some demoConsole, enable := true, initial := true, source := "" }),
    (Console, { logger := some demoAuto, enable := true, initial := true, source := SourceAuto }) ]

/-- The calls that produce `demoMgr` after the package initialisers. -/
def demoOps : List (Op ConsoleLog) :=
  [ Op.RegisterLogger "real" (some NewConsoleLog),
    Op.RegisterLogger "file" (some NewConsoleLog),
    Op.InitLogger "real" (some demoWarnConfig),
    Op.EnableLogger Console true ]

/-- A configuration with level "fatal". -/
def demoConfig : LoggerConfig :=
  { Level := "FATAL", Source := "", Service := "svc2", Skip := 0 }

/-- The entry "console" after the package initialisers ran. -/
def demoAutoInstance : LogInstance ConsoleLog :=
  { logger := some demoAuto, enable := true, initial := true, source := SourceAuto }

/-- A backend implementation whose `Reopen` fails for the service "svc1" and
is the console backend otherwise. -/
def demoFlaky : LogInterface ConsoleLog :=
  { Init := ConsoleLog.Init demoEnv
    Reopen := fun c => (c, if c.service = "svc1" then some "disk full" else none)
    SetLevel := ConsoleLog.SetLevel
    SetSkip := ConsoleLog.SetSkip
    Fatal := ConsoleLog.Fatal demoEnv
    Warn := ConsoleLog.Warn demoEnv
    Info := ConsoleLog.Info demoEnv
    Debug := ConsoleLog.Debug demoEnv
    Close := ConsoleLog.Close }

/-- A context that carries the trace id "t1". -/
def demoCtx : Context := some [(TraceId, Value.str "t1")]

/-- The process-start table of the demo environment with "real" registered. -/
def demoStart : Registry ConsoleLog :=
  (RegisterLogger (packageInit demoEnv) "real" (some NewConsoleLog)).mgr

/-- Calls after the first `InitLogger`, none of which enables "console". -/
def demoLaterOps : List (Op ConsoleLog) :=
  [ Op.Emit Verb.Info none "i" [],
    Op.SetLevelAll "warn",
    Op.RegisterLogger "file" (some NewConsoleLog),
    Op.EnableLogger "real" true,
    Op.SetLevel Console "debug" ]

/-! ## Lemmas on the table -/

section RegistryLemmas

variable {σ : Type}

theorem Registry.get_nil (name : String) : Registry.get ([] : Registry σ) name = none := rfl

theorem Registry.get_cons (m : Registry σ) (k name : String) (v : LogInstance σ) :
    Registry.get ((k, v) :: m) name = if name = k then some v else Registry.get m name := by
  unfold Registry.get
  by_cases h : name = k
  · subst h; simp [List.lookup]
  · have hb : (name == k) = false := by simpa using h
    simp [List.lookup, hb, h]

theorem Registry.get_insert_self (m : Registry σ) (name : String) (inst : LogInstance σ) :
    (m.insert name inst).get name = some inst := by
  simp [Registry.insert, Registry.get_cons]

theorem Registry.get_insert_other (m : Registry σ) (name k : String) (inst : LogInstance σ)
    (h : k ≠ name) : (m.insert name inst).get k = m.get k := by
  simp [Registry.insert, Registry.get_cons, h]

theorem Registry.get_set_self (m : Registry σ) (name : String) (inst old : LogInstance σ)
    (h : m.get name = some old) : (m.set name inst).get name = some inst := by
  induction m with
  | nil => simp [Registry.get_nil] at h
  | cons e rest ih =>
    obtain ⟨k, v⟩ := e
    rw [Registry.get_cons] at h
    by_cases hk : name = k
    · subst hk
      simp [Registry.set, Registry.get_cons]
    · have hk2 : ¬ k = name := fun h2 => hk h2.symm
      simp only [hk, if_false] at h
      have := ih h
      simp only [Registry.set] at this ⊢
      simp [List.map, hk2, Registry.get_cons, hk, this]

theorem Registry.get_set_other (m : Registry σ) (name k : String) (inst : LogInstance σ)
    (h : k ≠ name) : (m.set name inst).get k = m.get k := by
  induction m with
  | nil => rfl
  | cons e rest ih =>
    obtain ⟨k2, v⟩ := e
    simp only [Registry.set] at ih ⊢
    by_cases hk : k2 = name
    · subst hk
      simp [List.map, Registry.get_cons, h, ih]
    · simp [List.map, hk, Registry.get_cons, ih]

theorem Registry.get_delete_self (m : Registry σ) (name : String) :
    (m.delete name).get name = none := by
  induction m with
  | nil => rfl
  | cons e rest ih =>
    obtain ⟨k, v⟩ := e
    simp [Registry.delete] at ih ⊢
    by_cases hk : k = name
    · simp [List.filter, hk, ih]
    · have hk2 : ¬ name = k := fun h2 => hk h2.symm
      simp [List.filter, hk, Registry.get_cons, hk2, ih]

theorem Registry.get_delete_other (m : Registry σ) (name k : String) (h : k ≠ name) :
    (m.delete name).get k = m.get k := by
  induction m with
  | nil => rfl
  | cons e rest ih =>
    obtain ⟨k2, v⟩ := e
    simp [Registry.delete] at ih ⊢
    by_cases hk : k2 = name
    · subst hk
      simp [List.filter, Registry.get_cons, h, ih]
    · simp [List.filter, hk, Registry.get_cons, ih]

theorem Registry.delete_set (m : Registry σ) (name : String) (inst : LogInstance σ) :
    (m.set name inst).delete name = m.delete name := by
  induction m with
  | nil => rfl
  | cons e rest ih =>
    obtain ⟨k, v⟩ := e
    simp [Registry.delete, Registry.set] at ih ⊢
    by_cases hk : k = name
    · simp [List.map, List.filter, hk, ih]
    · simp [List.map, List.filter, hk, ih]

theorem Registry.get_mapValues (m : Registry σ) (f : LogInstance σ → LogInstance σ) (k : String) :
    Registry.get (m.map (fun e => (e.1, f e.2))) k = (m.get k).map f := by
  induction m with
  | nil => rfl
  | cons e rest ih =>
    obtain ⟨k2, v⟩ := e
    simp only [List.map, Registry.get_cons, ih]
    by_cases hk : k = k2 <;> simp [hk]

theorem Registry.mem_of_get (m : Registry σ) (k : String) (v : LogInstance σ)
    (h : m.get k = some v) : (k, v) ∈ m := by
  induction m with
  | nil => simp [Registry.get_nil] at h
  | cons e rest ih =>
    obtain ⟨k2, v2⟩ := e
    rw [Registry.get_cons] at h
    by_cases hk : k = k2
    · simp only [hk, if_true, Option.some.injEq] at h
      simp [hk, h]
    · simp only [hk, if_false] at h
      exact List.mem_cons_of_mem _ (ih h)

theorem Registry.get_of_mem (m : Registry σ) (k : String) (v : LogInstance σ)
    (hnd : (m.map Prod.fst).Nodup) (h : (k, v) ∈ m) : m.get k = some v := by
  induction m with
  | nil => simp at h
  | cons e rest ih =>
    obtain ⟨k2, v2⟩ := e
    simp only [List.map, List.nodup_cons, List.mem_map, not_exists, not_and] at hnd
    rw [Registry.get_cons]
    rcases List.mem_cons.mp h with h1 | h1
    · simp only [Prod.mk.injEq] at h1
      simp [h1.1, h1.2]
    · have hne : k ≠ k2 := by
        intro hk
        exact hnd.1 (k, v) h1 hk
      simp [hne, ih hnd.2 h1]

end RegistryLemmas

/-! ## The level model -/

theorem map_toLower_of_caseVariantChars :
    ∀ (l n : List Char), caseVariantChars l n = true →
      (∀ y ∈ n, y.toLower = y ∧ y.toUpper.toLower = y) → l.map Char.toLower = n
  | [], [], _, _ => rfl
  | [], _ :: _, h, _ => by simp [caseVariantChars] at h
  | _ :: _, [], h, _ => by simp [caseVariantChars] at h
  | x :: l, y :: n, h, hy => by
    simp only [caseVariantChars, Bool.and_eq_true, Bool.or_eq_true, beq_iff_eq] at h
    have hy1 := hy y (List.mem_cons_self _ _)
    have ih := map_toLower_of_caseVariantChars l n h.2
      (fun z hz => hy z (List.mem_cons_of_mem _ hz))
    rcases h.1 with rfl | rfl
    · simp [hy1.1, ih]
    · simp [hy1.2, ih]

theorem ToLower_of_CaseVariant (t name : String) (hname : name ∈ levelNames)
    (h : CaseVariant t name) : ToLower t = name := by
  have hchars : ∀ y ∈ name.data, y.toLower = y ∧ y.toUpper.toLower = y := by
    simp only [levelNames, List.mem_cons, List.mem_singleton, List.not_mem_nil, or_false] at hname
    rcases hname with rfl | rfl | rfl | rfl | rfl <;> decide
  have hmap := map_toLower_of_caseVariantChars t.data name.data h hchars
  unfold ToLower
  rw [hmap]

/-- C5: `LevelFromStr` is total and case-insensitive.  For every string `s` it
returns 0 when the lower-cased `s` is "debug", 1 for "info", 2 for "warn", 3 for
"fatal", 4 for "none" and 1 for every other string, the empty one included; the
result is at most 4; two strings with the same lower-casing get the same level,
and any spelling of a recognised name with some letters in upper case gets the
level of the lower-case name. -/
theorem LevelFromStr_total_case_insensitive (s : String) :
    (ToLower s = "debug" → LevelFromStr s = 0) ∧
    (ToLower s = "info" → LevelFromStr s = 1) ∧
    (ToLower s = "warn" → LevelFromStr s = 2) ∧
    (ToLower s = "fatal" → LevelFromStr s = 3) ∧
    (ToLower s = "none" → LevelFromStr s = 4) ∧
    (ToLower s ∉ ["debug", "info", "warn", "fatal", "none"] → LevelFromStr s = 1) ∧
    LevelFromStr "" = 1 ∧
    LevelFromStr s ≤ 4 ∧
    (∀ t : String, ToLower t = ToLower s → LevelFromStr t = LevelFromStr s) ∧
    (∀ name ∈ ["debug", "info", "warn", "fatal", "none"],
      CaseVariant s name → LevelFromStr s = LevelFromStr name) := by
  refine ⟨?_, ?_, ?_, ?_, ?_, ?_, by decide, ?_, ?_, ?_⟩
  · intro h; simp [LevelFromStr, h, LevelDebug, DebugLevel]
  · intro h; simp [LevelFromStr, h, LevelDebug, LevelInfo, InfoLevel]
  · intro h; simp [LevelFromStr, h, LevelDebug, LevelInfo, LevelWarn, WarnLevel]
  · intro h; simp [LevelFromStr, h, LevelDebug, LevelInfo, LevelWarn, LevelFatal, FatalLevel]
  · intro h
    simp [LevelFromStr, h, LevelDebug, LevelInfo, LevelWarn, LevelFatal, LevelNone, NoneLevel]
  · intro h
    simp only [List.mem_cons, List.mem_singleton, List.not_mem_nil, or_false, not_or] at h
    simp [LevelFromStr, h, LevelDebug, LevelInfo, LevelWarn, LevelFatal, LevelNone, InfoLevel]
  · unfold LevelFromStr
    simp only [DebugLevel, InfoLevel, WarnLevel, FatalLevel, NoneLevel]
    split_ifs <;> omega
  · intro t h
    simp [LevelFromStr, h]
  · intro name hname hv
    have h1 : ToLower s = name := ToLower_of_CaseVariant s name hname hv
    have h2 : ToLower name = name := by
      simp only [List.mem_cons, List.mem_singleton, List.not_mem_nil, or_false] at hname
      rcases hname with rfl | rfl | rfl | rfl | rfl <;> decide
    simp [LevelFromStr, h1, h2]

/-- C5 at the input "FaTaL": it lower-cases to "fatal", is a spelling of
"fatal", and its level is 3. -/
theorem LevelFromStr_total_case_insensitive_witness :
    ToLower "FaTaL" = "fatal" ∧ CaseVariant "FaTaL" "fatal" ∧ LevelFromStr "FaTaL" = 3 ∧
      LevelFromStr "FaTaL" = LevelFromStr "fatal" :=
  ⟨by decide, by decide,
    (LevelFromStr_total_case_insensitive "FaTaL").2.2.2.1 (by decide),
    (LevelFromStr_total_case_insensitive "FaTaL").2.2.2.2.2.2.2.2.2 "fatal" (by decide)
      (by decide)⟩

/-! ## The console backend -/

theorem ConsoleLog.write_eq (env : Env) (c : ConsoleLog) (ctx : Context) (level : Nat)
    (msg : String) :
    ∃ line, c.write env ctx level msg =
      [(if level ≥ WarnLevel then Stream.Stderr else Stream.Stdout, line)] :=
  ⟨_, rfl⟩

/-- `SetSkip` stores its argument, whatever its sign. -/
theorem ConsoleLog.SetSkip_skip (c : ConsoleLog) (n : Int) : (c.SetSkip n).skip = n := rfl

/-- C6 at the inputs `SetSkip(0)` and `SetSkip(-2)` on a new console backend
(skip depth 6): the depth becomes 0 and -2, it is not left unchanged; `Init`
with `Skip: 0` does keep the depth 6. -/
theorem ConsoleLog_SetSkip_nonpositive :
    NewConsoleLog.skip = 6 ∧
    (NewConsoleLog.SetSkip 0).skip = 0 ∧
    (NewConsoleLog.SetSkip (-2)).skip = -2 ∧
    (NewConsoleLog.Init demoEnv (some demoConfig)).1.skip = 6 := by
  decide

/-! ## The registry: registration, lookup, enabling -/

section RegistryTheorems

variable {σ : Type}

/-- On an initialised entry `EnableLogger` stores `true`, whatever flag was
asked for. -/
theorem EnableLogger_initialized (m : Registry σ) (name : String) (b : Bool)
    (inst : LogInstance σ) (h : m.get name = some inst) (hi : inst.initial = true) :
    (EnableLogger m name b).result = Result.ok ∧
    (EnableLogger m name b).mgr.get name = some { inst with enable := true } := by
  simp only [EnableLogger, h, hi, Bool.not_true]
  exact ⟨rfl, Registry.get_set_self m name _ inst h⟩

/-- C3: when `name` is registered, `RegisterLogger(name, b2)` returns an error,
calls no backend and leaves the table as it was, so `GetLogger(name)` still
returns the first backend; when `name` is not registered it succeeds, the entry
under `name` is the fresh one with backend `b2`, every other key reads as
before, every old pair is still there and the table has one pair more. -/
theorem RegisterLogger_duplicate_or_fresh (m : Registry σ) (name : String) (b2 : Option σ) :
    (∀ inst : LogInstance σ, m.get name = some inst →
      (RegisterLogger m name b2).result = Result.error ("duplicate logger: " ++ name) ∧
      (RegisterLogger m name b2).calls = [] ∧
      (RegisterLogger m name b2).mgr = m ∧
      (GetLogger (RegisterLogger m name b2).mgr name).1 = inst.logger ∧
      (GetLogger (RegisterLogger m name b2).mgr name).2.result = Result.ok) ∧
    (m.get name = none →
      (RegisterLogger m name b2).result = Result.ok ∧
      (RegisterLogger m name b2).calls = [] ∧
      (RegisterLogger m name b2).mgr.get name =
        some { logger := b2, enable := false, initial := false, source := "" } ∧
      (∀ k : String, k ≠ name → (RegisterLogger m name b2).mgr.get k = m.get k) ∧
      (∀ e ∈ m, e ∈ (RegisterLogger m name b2).mgr) ∧
      (RegisterLogger m name b2).mgr.length = m.length + 1) := by
  constructor
  · intro inst h
    simp [RegisterLogger, GetLogger, h]
  · intro h
    simp only [RegisterLogger, h]
    refine ⟨trivial, trivial, Registry.get_insert_self m name _, ?_, ?_, ?_⟩
    · intro k hk
      exact Registry.get_insert_other m name k _ hk
    · intro e he
      exact List.mem_cons_of_mem _ he
    · simp [Registry.insert]

/-- C3 on the demo table: registering "real" again fails and the first backend
is still returned; registering the new name "net" succeeds with a fresh entry. -/
theorem RegisterLogger_duplicate_or_fresh_witness :
    ((RegisterLogger demoMgr "real" (some NewConsoleLog)).result =
        Result.error ("duplicate logger: " ++ "real") ∧
      (RegisterLogger demoMgr "real" (some NewConsoleLog)).mgr = demoMgr ∧
      (GetLogger (RegisterLogger demoMgr "real" (some NewConsoleLog)).mgr "real").1 =
        some demoConsole) ∧
    ((RegisterLogger demoMgr "net" (some NewConsoleLog)).result = Result.ok ∧
      (RegisterLogger demoMgr "net" (some NewConsoleLog)).mgr.get "net" =
        some { logger := some NewConsoleLog, enable := false, initial := false, source := "" }) :=
  have h1 := (RegisterLogger_duplicate_or_fresh demoMgr "real" (some NewConsoleLog)).1
    { logger := some demoConsole, enable := true, initial := true, source := "" } (by decide)
  have h2 := (RegisterLogger_duplicate_or_fresh demoMgr "net" (some NewConsoleLog)).2 (by decide)
  ⟨⟨h1.1, h1.2.2.1, h1.2.2.2.1⟩, ⟨h2.1, h2.2.2.1⟩⟩

/-- C8: for a name that is not registered, `InitLogger`, `EnableLogger`,
`GetLogger`, `UnregisterLogger` and `SetLevel` each return an error, call no
backend method and leave the table as it was. -/
theorem unregistered_name_is_error (L : LogInterface σ) (m : Registry σ) (name : String)
    (config : Option LoggerConfig) (b : Bool) (level : String) (h : m.get name = none) :
    ((InitLogger L m name config).result = Result.error ("not found logger[" ++ name ++ "]") ∧
      (InitLogger L m name config).calls = [] ∧ (InitLogger L m name config).mgr = m) ∧
    ((EnableLogger m name b).result = Result.error ("not found logger: " ++ name) ∧
      (EnableLogger m name b).calls = [] ∧ (EnableLogger m name b).mgr = m) ∧
    ((GetLogger m name).1 = none ∧
      (GetLogger m name).2.result = Result.error ("not found logger: " ++ name) ∧
      (GetLogger m name).2.calls = [] ∧ (GetLogger m name).2.mgr = m) ∧
    ((UnregisterLogger L m name).result = Result.error ("not found logger: " ++ name) ∧
      (UnregisterLogger L m name).calls = [] ∧ (UnregisterLogger L m name).mgr = m) ∧
    ((SetLevel L m name level).result = Result.error ("not found logger: " ++ name) ∧
      (SetLevel L m name level).calls = [] ∧ (SetLevel L m name level).mgr = m) := by
  simp [InitLogger, initLogger, EnableLogger, GetLogger, UnregisterLogger, SetLevel, h]

/-- C8 on the demo table with the unregistered name "ghost". -/
theorem unregistered_name_is_error_witness :
    demoMgr.get "ghost" = none ∧
    (InitLogger (consoleLog demoEnv) demoMgr "ghost" (some demoConfig)).mgr = demoMgr ∧
    (UnregisterLogger (consoleLog demoEnv) demoMgr "ghost").result =
      Result.error ("not found logger: " ++ "ghost") :=
  have h := unregistered_name_is_error (consoleLog demoEnv) demoMgr "ghost" (some demoConfig)
    true "warn" (by decide)
  ⟨by decide, h.1.2.2, h.2.2.2.1.1⟩

/-- C9: for a name registered with a backend, `UnregisterLogger` succeeds, calls
`Close` once, on that entry, and removes the entry; a following
`RegisterLogger(name, b)` succeeds, calls nothing and yields the fresh entry with
backend `b`; every other key reads as before after each of the two calls. -/
theorem Unregister_then_Register (L : LogInterface σ) (m : Registry σ) (name : String)
    (inst : LogInstance σ) (logger : σ) (b : Option σ)
    (h : m.get name = some inst) (hl : inst.logger = some logger) :
    (UnregisterLogger L m name).result = Result.ok ∧
    (UnregisterLogger L m name).calls = [(name, Call.Close)] ∧
    (UnregisterLogger L m name).mgr.get name = none ∧
    (RegisterLogger (UnregisterLogger L m name).mgr name b).result = Result.ok ∧
    (RegisterLogger (UnregisterLogger L m name).mgr name b).calls = [] ∧
    (RegisterLogger (UnregisterLogger L m name).mgr name b).mgr.get name =
      some { logger := b, enable := false, initial := false, source := "" } ∧
    (∀ k : String, k ≠ name →
      (UnregisterLogger L m name).mgr.get k = m.get k ∧
      (RegisterLogger (UnregisterLogger L m name).mgr name b).mgr.get k = m.get k) := by
  have hu : UnregisterLogger L m name =
      { mgr := m.delete name, calls := [(name, Call.Close)], result := Result.ok } := by
    simp [UnregisterLogger, h, hl, Registry.delete_set]
  have hg : (m.delete name).get name = none := Registry.get_delete_self m name
  have hr : RegisterLogger (m.delete name) name b =
      { mgr := (m.delete name).insert name
          { logger := b, enable := false, initial := false, source := "" },
        result := Result.ok } := by
    simp [RegisterLogger, hg]
  rw [hu]
  simp only [hr]
  refine ⟨trivial, trivial, hg, trivial, trivial, Registry.get_insert_self _ name _, ?_⟩
  intro k hk
  refine ⟨Registry.get_delete_other m name k hk, ?_⟩
  rw [Registry.get_insert_other _ name k _ hk]
  exact Registry.get_delete_other m name k hk

/-- C9 on the demo table: the enabled, initialised entry "real" is unregistered
and registered again with a new backend. -/
theorem Unregister_then_Register_witness :
    (UnregisterLogger (consoleLog demoEnv) demoMgr "real").calls = [("real", Call.Close)] ∧
    (RegisterLogger (UnregisterLogger (consoleLog demoEnv) demoMgr "real").mgr "real"
        (some NewConsoleLog)).mgr.get "real" =
      some { logger := some NewConsoleLog, enable := false, initial := false, source := "" } :=
  have h := Unregister_then_Register (consoleLog demoEnv) demoMgr "real"
    { logger := some demoConsole, enable := true, initial := true, source := "" } demoConsole
    (some NewConsoleLog) (by decide) rfl
  ⟨h.2.1, h.2.2.2.2.2.1⟩

/-- C10: on a registered entry whose `initial` flag is false, `EnableLogger`
with either flag returns success, calls no backend and leaves the entry with
`enable = false` and `initial = false` (its backend and source as before); every
other key reads as before. -/
theorem EnableLogger_uninitialized (m : Registry σ) (name : String) (b : Bool)
    (inst : LogInstance σ) (h : m.get name = some inst) (hi : inst.initial = false) :
    (EnableLogger m name b).result = Result.ok ∧
    (EnableLogger m name b).calls = [] ∧
    (EnableLogger m name b).mgr.get name =
      some { logger := inst.logger, enable := false, initial := false, source := inst.source } ∧
    (∀ k : String, k ≠ name → (EnableLogger m name b).mgr.get k = m.get k) := by
  simp only [EnableLogger, h, hi, Bool.not_false, if_true]
  refine ⟨trivial, trivial, ?_, ?_⟩
  · rw [Registry.get_set_self m name _ inst h, ← hi]
  · intro k hk
    exact Registry.get_set_other m name k _ hk

/-- C10 on the demo table: `EnableLogger("file", true)` on the never initialised
entry "file". -/
theorem EnableLogger_uninitialized_witness :
    (EnableLogger demoMgr "file" true).result = Result.ok ∧
    (EnableLogger demoMgr "file" true).mgr.get "file" =
      some { logger := some NewConsoleLog, enable := false, initial := false, source := "" } :=
  have h := EnableLogger_uninitialized demoMgr "file" true
    { logger := some NewConsoleLog, enable := false, initial := false, source := "" }
    (by decide) rfl
  ⟨h.1, h.2.2.1⟩

end RegistryTheorems

/-- C1 at the input `EnableLogger("real", false)` on the demo table, where "real"
is initialised and enabled: the call succeeds and the entry is still enabled,
it is not disabled. -/
theorem EnableLogger_false_leaves_enabled :
    demoMgr.get "real" =
      some { logger := some demoConsole, enable := true, initial := true, source := "" } ∧
    (EnableLogger demoMgr "real" false).result = Result.ok ∧
    (EnableLogger demoMgr "real" false).mgr.get "real" =
      some { logger := some demoConsole, enable := true, initial := true, source := "" } := by
  decide

/-! ## The registry: initialisation and fan-out -/

section InitTheorems

variable {σ : Type}

theorem Registry.keys_set (m : Registry σ) (name : String) (inst : LogInstance σ) :
    (m.set name inst).map Prod.fst = m.map Prod.fst := by
  induction m with
  | nil => rfl
  | cons e rest ih =>
    simp only [Registry.set] at ih ⊢
    by_cases hk : e.1 = name <;> simp [List.map, hk, ih]

theorem Registry.keys_mapValues (m : Registry σ) (f : LogInstance σ → LogInstance σ) :
    (m.map (fun e => (e.1, f e.2))).map Prod.fst = m.map Prod.fst := by
  induction m with
  | nil => rfl
  | cons e rest ih => simp

theorem rangeEnabled_calls_cons (step : σ → σ × List Write) (call : Call) (k : String)
    (v : LogInstance σ) (rest : Registry σ) :
    (rangeEnabled step call ((k, v) :: rest)).2.1 =
      if v.logger.isSome = true ∧ v.enable = true then
        (k, call) :: (rangeEnabled step call rest).2.1
      else (rangeEnabled step call rest).2.1 := by
  rcases hr : rangeEnabled step call rest with ⟨r, c, w⟩
  cases hl : v.logger <;> cases he : v.enable <;> simp [rangeEnabled, hr, hl, he]

/-- The calls of the shared loop: one per pair of the table whose backend is not
nil and whose `enable` flag is set. -/
theorem mem_rangeEnabled_calls (step : σ → σ × List Write) (call : Call) (m : Registry σ)
    (k : String) (c : Call) :
    (k, c) ∈ (rangeEnabled step call m).2.1 ↔
      c = call ∧ ∃ v, (k, v) ∈ m ∧ v.logger.isSome = true ∧ v.enable = true := by
  induction m with
  | nil => simp [rangeEnabled]
  | cons e rest ih =>
    obtain ⟨k2, v2⟩ := e
    rw [rangeEnabled_calls_cons]
    by_cases hr : v2.logger.isSome = true ∧ v2.enable = true
    · simp only [hr, and_self, if_true, List.mem_cons, Prod.mk.injEq, ih]
      constructor
      · rintro (⟨hk, hc⟩ | ⟨hc, v, hv, h1, h2⟩)
        · exact ⟨hc, v2, Or.inl ⟨hk, rfl⟩, hr.1, hr.2⟩
        · exact ⟨hc, v, Or.inr hv, h1, h2⟩
      · rintro ⟨hc, v, hv | hv, h1, h2⟩
        · exact Or.inl ⟨hv.1, hc⟩
        · exact Or.inr ⟨hc, v, hv, h1, h2⟩
    · simp only [hr, if_false, List.mem_cons, Prod.mk.injEq, ih]
      constructor
      · rintro ⟨hc, v, hv, h1, h2⟩
        exact ⟨hc, v, Or.inr hv, h1, h2⟩
      · rintro ⟨hc, v, hv | hv, h1, h2⟩
        · rw [hv.2] at h1 h2
          exact absurd ⟨h1, h2⟩ hr
        · exact ⟨hc, v, hv, h1, h2⟩

theorem dispatch_calls (L : LogInterface σ) (verb : Verb) (m : Registry σ) (ctx : Context)
    (format : String) (a : List Value) :
    ∃ step, (dispatch L verb m ctx format a).calls =
      (rangeEnabled step (verb.call ctx format a) m).2.1 := by
  cases verb
  · exact ⟨fun b => L.Fatal b ctx format a, rfl⟩
  · exact ⟨fun b => L.Warn b ctx format a, rfl⟩
  · exact ⟨fun b => L.Info b ctx format a, rfl⟩
  · exact ⟨fun b => L.Debug b ctx format a, rfl⟩

/-- The calls of a dispatcher verb: its own backend method, once per pair of the
table whose backend is not nil and whose `enable` flag is set. -/
theorem mem_dispatch_calls (L : LogInterface σ) (verb : Verb) (m : Registry σ) (ctx : Context)
    (format : String) (a : List Value) (k : String) (c : Call) :
    (k, c) ∈ (dispatch L verb m ctx format a).calls ↔
      c = verb.call ctx format a ∧ ∃ v, (k, v) ∈ m ∧ v.logger.isSome = true ∧ v.enable = true := by
  obtain ⟨step, h⟩ := dispatch_calls L verb m ctx format a
  rw [h]
  exact mem_rangeEnabled_calls step _ m k c

/-- What a successful `InitLogger` did: the entry was there with a backend,
`Init` returned no error, and the table is the old one with the entry reset and
then the auto-injected loggers closed. -/
theorem InitLogger_ok_inv (L : LogInterface σ) (m : Registry σ) (name : String)
    (config : Option LoggerConfig) (h : (InitLogger L m name config).result = Result.ok) :
    ∃ inst logger, m.get name = some inst ∧ inst.logger = some logger ∧
      (L.Init logger config).2 = none ∧
      (InitLogger L m name config).calls = [(name, Call.Init config)] ∧
      (InitLogger L m name config).mgr =
        (m.set name
          { logger := some (L.Init logger config).1, enable := true, initial := true, source := "" }).map
          (fun e => (e.1, closeAuto e.2)) := by
  unfold InitLogger initLogger at h ⊢
  cases hg : m.get name with
  | none => simp [hg] at h
  | some inst =>
    cases hl : inst.logger with
    | none => simp [hg, hl] at h
    | some logger =>
      cases he : (L.Init logger config).2 with
      | some e => simp [hg, hl, he] at h
      | none =>
        refine ⟨inst, logger, rfl, hl, he, ?_, ?_⟩
        · simp [hl, he]
        · simp [hl, he]

theorem closeAuto_source (v : LogInstance σ) : (closeAuto v).source = v.source := by
  unfold closeAuto
  split_ifs <;> rfl

theorem closeAuto_of_not_auto (v : LogInstance σ) (h : v.source ≠ SourceAuto) :
    closeAuto v = v := by
  unfold closeAuto
  split_ifs <;> rfl

theorem closeAuto_auto_enable (v : LogInstance σ) (h : v.source = SourceAuto)
    (hb : v.enable = true → v.logger.isSome = true) : (closeAuto v).enable = false := by
  unfold closeAuto
  cases he : v.enable with
  | false => simp [he]
  | true =>
    have hs := hb he
    cases hl : v.logger with
    | none => simp [hl] at hs
    | some l => simp [h]

/-- C2: after a successful `InitLogger(name, cfg)` on a table of the program
(distinct keys, every enabled entry has a backend), the entry `name` has
`enable = true`, `initial = true`, `source = ""` and a backend; every other
entry whose source is "auto" has `enable = false`; every other entry whose
source is not "auto" is exactly as before; so each of the four fan-out verbs then
calls the backend of `name`, and calls no backend of an entry with source
"auto". -/
theorem InitLogger_success_silences_auto (L : LogInterface σ) (m : Registry σ) (name : String)
    (config : Option LoggerConfig) (hv : m.Valid)
    (h : (InitLogger L m name config).result = Result.ok) :
    (∃ v, (InitLogger L m name config).mgr.get name = some v ∧ v.enable = true ∧
      v.initial = true ∧ v.source = "" ∧ v.logger.isSome = true) ∧
    (∀ (k : String) (v : LogInstance σ), k ≠ name →
      (InitLogger L m name config).mgr.get k = some v → v.source = SourceAuto →
        v.enable = false) ∧
    (∀ (k : String) (v : LogInstance σ), k ≠ name → m.get k = some v →
      v.source ≠ SourceAuto → (InitLogger L m name config).mgr.get k = some v) ∧
    (∀ (verb : Verb) (ctx : Context) (format : String) (a : List Value),
      (name, verb.call ctx format a) ∈
        (dispatch L verb (InitLogger L m name config).mgr ctx format a).calls ∧
      ∀ (k : String) (v : LogInstance σ), (InitLogger L m name config).mgr.get k = some v →
        v.source = SourceAuto →
          ∀ c : Call, (k, c) ∉
            (dispatch L verb (InitLogger L m name config).mgr ctx format a).calls) := by
  obtain ⟨inst, logger, hg, hl, hinit, hcalls, hmgr⟩ := InitLogger_ok_inv L m name config h
  have hname : (InitLogger L m name config).mgr.get name = some
      { logger := some (L.Init logger config).1, enable := true, initial := true, source := "" } := by
    rw [hmgr, Registry.get_mapValues, Registry.get_set_self m name _ inst hg]
    simp [closeAuto, SourceAuto]
  have hother : ∀ k : String, k ≠ name →
      (InitLogger L m name config).mgr.get k = (m.get k).map closeAuto := by
    intro k hk
    rw [hmgr, Registry.get_mapValues, Registry.get_set_other m name k _ hk]
  have hnd : ((InitLogger L m name config).mgr.map Prod.fst).Nodup := by
    rw [hmgr, Registry.keys_mapValues, Registry.keys_set]
    exact hv.1
  refine ⟨⟨_, hname, rfl, rfl, rfl, rfl⟩, ?_, ?_, ?_⟩
  · intro k v hk hgk hsrc
    rw [hother k hk] at hgk
    cases hm : m.get k with
    | none => simp [hm] at hgk
    | some v0 =>
      simp only [hm, Option.map_some', Option.some.injEq] at hgk
      subst hgk
      rw [closeAuto_source] at hsrc
      exact closeAuto_auto_enable v0 hsrc (hv.2 (k, v0) (Registry.mem_of_get m k v0 hm))
  · intro k v hk hgk hsrc
    rw [hother k hk, hgk]
    simp [closeAuto_of_not_auto v hsrc]
  · intro verb ctx format a
    constructor
    · rw [mem_dispatch_calls]
      exact ⟨rfl, _, Registry.mem_of_get _ name _ hname, rfl, rfl⟩
    · intro k v hgk hsrc c hc
      rw [mem_dispatch_calls] at hc
      obtain ⟨_, v2, hmem, hsome, hen⟩ := hc
      have hg2 := Registry.get_of_mem _ k v2 hnd hmem
      rw [hgk] at hg2
      simp only [Option.some.injEq] at hg2
      subst hg2
      by_cases hk : k = name
      · subst hk
        rw [hname] at hgk
        simp only [Option.some.injEq] at hgk
        subst hgk
        simp [SourceAuto] at hsrc
      · rw [hother k hk] at hgk
        cases hm : m.get k with
        | none => simp [hm] at hgk
        | some v0 =>
          simp only [hm, Option.map_some', Option.some.injEq] at hgk
          subst hgk
          rw [closeAuto_source] at hsrc
          have := closeAuto_auto_enable v0 hsrc
            (hv.2 (k, v0) (Registry.mem_of_get m k v0 hm))
          rw [this] at hen
          simp at hen

/-- C2 on the demo table: `InitLogger("file", cfg)` succeeds, "file" is enabled
with source "", the auto-initialised "console" entry is disabled, and a `Debug`
call reaches "file" but not "console". -/
theorem InitLogger_success_silences_auto_witness :
    demoMgr.Valid ∧
    (InitLogger (consoleLog demoEnv) demoMgr "file" (some demoConfig)).result = Result.ok ∧
    (∃ v, (InitLogger (consoleLog demoEnv) demoMgr "file" (some demoConfig)).mgr.get "file" =
      some v ∧ v.enable = true ∧ v.initial = true ∧ v.source = "" ∧ v.logger.isSome = true) ∧
    ("file", Call.Debug none "x" []) ∈
      (dispatch (consoleLog demoEnv) Verb.Debug
        (InitLogger (consoleLog demoEnv) demoMgr "file" (some demoConfig)).mgr none "x" []).calls ∧
    ("console", Call.Debug none "x" []) ∉
      (dispatch (consoleLog demoEnv) Verb.Debug
        (InitLogger (consoleLog demoEnv) demoMgr "file" (some demoConfig)).mgr none "x" []).calls :=
  have h := InitLogger_success_silences_auto (consoleLog demoEnv) demoMgr "file"
    (some demoConfig) (by decide) (by decide)
  ⟨by decide, by decide, h.1, (h.2.2.2 Verb.Debug none "x" []).1,
    (h.2.2.2 Verb.Debug none "x" []).2 "console"
      { logger := some demoAuto, enable := false, initial := true, source := SourceAuto }
      (by decide) rfl _⟩

end InitTheorems

/-! ## The invariant of the table -/

section Invariant

variable {σ : Type}

theorem rangeEnabled_mgr (step : σ → σ × List Write) (call : Call) (m : Registry σ) :
    (rangeEnabled step call m).1 =
      m.map (fun e => (e.1, e.2.onEnabled (fun b => (step b).1))) := by
  induction m with
  | nil => rfl
  | cons e rest ih =>
    obtain ⟨k, v⟩ := e
    rcases hr : rangeEnabled step call rest with ⟨r, c, w⟩
    rw [hr] at ih
    simp only at ih
    cases hl : v.logger <;> cases he : v.enable <;>
      simp [rangeEnabled, hr, hl, he, LogInstance.onEnabled, ih]

theorem reopenLoop_mgr (L : LogInterface σ) (m : Registry σ) (errMsg : String) :
    (reopenLoop L m errMsg).1 =
      m.map (fun e => (e.1, e.2.onEnabled (fun b => (L.Reopen b).1))) := by
  induction m generalizing errMsg with
  | nil => rfl
  | cons e rest ih =>
    obtain ⟨k, v⟩ := e
    cases hl : v.logger with
    | none =>
      rcases hr : reopenLoop L rest errMsg with ⟨r, c, w⟩
      have := ih errMsg
      rw [hr] at this
      simp only at this
      simp [reopenLoop, hr, hl, LogInstance.onEnabled, this]
    | some logger =>
      cases he : v.enable with
      | false =>
        rcases hr : reopenLoop L rest errMsg with ⟨r, c, w⟩
        have := ih errMsg
        rw [hr] at this
        simp only at this
        simp [reopenLoop, hr, hl, he, LogInstance.onEnabled, this]
      | true =>
        simp only [reopenLoop, hl, he, Bool.not_true]
        generalize hmsg : (match (L.Reopen logger).2 with
          | some e => errMsg ++ ("logger: " ++ k ++ " reload failed, err:" ++ e ++ " \n")
          | none => errMsg) = msg
        rcases hr : reopenLoop L rest msg with ⟨r, c, w⟩
        have := ih msg
        rw [hr] at this
        simp only at this
        simp [hr, hl, he, LogInstance.onEnabled, this]

theorem LogInstance.Good_onEnabled (step : σ → σ) (v : LogInstance σ) (h : v.Good) :
    (v.onEnabled step).Good := by
  unfold LogInstance.onEnabled
  cases hl : v.logger with
  | none => simpa using h
  | some l =>
    simp only
    split_ifs
    · exact h
    · exact ⟨h.1, fun _ => rfl⟩

theorem LogInstance.Good_closeAuto (v : LogInstance σ) (h : v.Good) : (closeAuto v).Good := by
  unfold closeAuto
  split_ifs
  · exact h
  · exact ⟨fun hc => by simp at hc, h.2⟩
  · exact h

theorem Registry.Inv_nil : Registry.Inv ([] : Registry σ) := by
  simp [Registry.Inv]

theorem Registry.Inv_mapValues (m : Registry σ) (f : LogInstance σ → LogInstance σ)
    (hf : ∀ v : LogInstance σ, v.Good → (f v).Good) (h : m.Inv) :
    Registry.Inv (m.map (fun e => (e.1, f e.2))) := by
  refine ⟨by rw [Registry.keys_mapValues]; exact h.1, ?_⟩
  intro e he
  obtain ⟨e0, he0, rfl⟩ := List.mem_map.mp he
  exact hf _ (h.2 e0 he0)

theorem Registry.Inv_set (m : Registry σ) (name : String) (inst : LogInstance σ)
    (hi : inst.Good) (h : m.Inv) : (m.set name inst).Inv := by
  refine ⟨by rw [Registry.keys_set]; exact h.1, ?_⟩
  intro e he
  obtain ⟨e0, he0, rfl⟩ := List.mem_map.mp he
  by_cases hk : e0.1 = name
  · simpa [hk] using hi
  · simpa [hk] using h.2 e0 he0

theorem Registry.not_mem_keys_of_get_none (m : Registry σ) (name : String)
    (h : m.get name = none) : name ∉ m.map Prod.fst := by
  intro hmem
  obtain ⟨e, he, hk⟩ := List.mem_map.mp hmem
  induction m with
  | nil => simp at he
  | cons e2 rest ih =>
    obtain ⟨k2, v2⟩ := e2
    rw [Registry.get_cons] at h
    by_cases hk2 : name = k2
    · simp [hk2] at h
    · simp only [hk2, if_false] at h
      rcases List.mem_cons.mp he with h1 | h1
      · rw [h1] at hk
        exact hk2 hk.symm
      · exact ih h (List.mem_map.mpr ⟨e, h1, hk⟩) h1

theorem Registry.Inv_insert (m : Registry σ) (name : String) (inst : LogInstance σ)
    (hn : m.get name = none) (hi : inst.Good) (h : m.Inv) : (m.insert name inst).Inv := by
  refine ⟨?_, ?_⟩
  · simp only [Registry.insert, List.map, List.nodup_cons]
    exact ⟨Registry.not_mem_keys_of_get_none m name hn, h.1⟩
  · intro e he
    rcases List.mem_cons.mp he with h1 | h1
    · rw [h1]; exact hi
    · exact h.2 e h1

theorem Registry.Inv_delete (m : Registry σ) (name : String) (h : m.Inv) :
    (m.delete name).Inv := by
  refine ⟨?_, ?_⟩
  · exact List.Nodup.sublist (List.Sublist.map _ (List.filter_sublist _)) h.1
  · intro e he
    exact h.2 e (List.mem_of_mem_filter he)

theorem Registry.Inv.toValid {m : Registry σ} (h : m.Inv) : m.Valid :=
  ⟨h.1, fun e he hen => (h.2 e he).2 ((h.2 e he).1 hen)⟩

theorem Registry.Inv.good_of_get {m : Registry σ} (h : m.Inv) {name : String}
    {inst : LogInstance σ} (hg : m.get name = some inst) : inst.Good :=
  h.2 (name, inst) (Registry.mem_of_get m name inst hg)

theorem initLogger_Inv (L : LogInterface σ) (m : Registry σ) (name : String)
    (config : Option LoggerConfig) (source : String) (h : m.Inv) :
    (initLogger L m name config source).mgr.Inv := by
  cases hg : m.get name with
  | none => simpa [initLogger, hg] using h
  | some inst =>
    have hgood := h.good_of_get hg
    cases hl : inst.logger with
    | none => simpa [initLogger, hg, hl] using h
    | some logger =>
      cases he : (L.Init logger config).2 with
      | some e =>
        simp only [initLogger, hg, hl, he]
        exact Registry.Inv_set m name _ ⟨hgood.1, fun _ => rfl⟩ h
      | none =>
        simp only [initLogger, hg, hl, he]
        apply Registry.Inv_set m name _ _ h
        split_ifs <;> exact ⟨fun _ => rfl, fun _ => rfl⟩

theorem Reopen_mgr (L : LogInterface σ) (m : Registry σ) :
    (Reopen L m).mgr = m.map (fun e => (e.1, e.2.onEnabled (fun b => (L.Reopen b).1))) := by
  rw [← reopenLoop_mgr L m ""]
  rfl

theorem SetLevelAll_mgr (L : LogInterface σ) (m : Registry σ) (level : String) :
    (SetLevelAll L m level).mgr =
      m.map (fun e => (e.1, e.2.onEnabled (fun b => L.SetLevel b level))) := by
  rw [← rangeEnabled_mgr (fun b => (L.SetLevel b level, [])) (Call.SetLevel level) m]
  rfl

theorem Close_mgr (L : LogInterface σ) (m : Registry σ) :
    (Close L m).mgr = m.map (fun e => (e.1, e.2.onEnabled (fun b => L.Close b))) := by
  rw [← rangeEnabled_mgr (fun b => (L.Close b, [])) Call.Close m]
  rfl

theorem dispatch_mgr (L : LogInterface σ) (verb : Verb) (m : Registry σ) (ctx : Context)
    (format : String) (a : List Value) :
    ∃ step : σ → σ, (dispatch L verb m ctx format a).mgr =
      m.map (fun e => (e.1, e.2.onEnabled step)) := by
  cases verb
  · exact ⟨fun b => (L.Fatal b ctx format a).1,
      (rangeEnabled_mgr (fun b => L.Fatal b ctx format a) (Call.Fatal ctx format a) m).symm ▸ rfl⟩
  · exact ⟨fun b => (L.Warn b ctx format a).1,
      (rangeEnabled_mgr (fun b => L.Warn b ctx format a) (Call.Warn ctx format a) m).symm ▸ rfl⟩
  · exact ⟨fun b => (L.Info b ctx format a).1,
      (rangeEnabled_mgr (fun b => L.Info b ctx format a) (Call.Info ctx format a) m).symm ▸ rfl⟩
  · exact ⟨fun b => (L.Debug b ctx format a).1,
      (rangeEnabled_mgr (fun b => L.Debug b ctx format a) (Call.Debug ctx format a) m).symm ▸ rfl⟩

theorem Inv_run (L : LogInterface σ) (m : Registry σ) (op : Op σ) (h : m.Inv) :
    (op.run L m).mgr.Inv := by
  cases op with
  | RegisterLogger name logger =>
    cases hg : m.get name with
    | some inst => simpa [Op.run, RegisterLogger, hg] using h
    | none =>
      simp only [Op.run, RegisterLogger, hg]
      exact Registry.Inv_insert m name _ hg ⟨fun hc => by simp at hc, fun hc => by simp at hc⟩ h
  | initLogger name config source => exact initLogger_Inv L m name config source h
  | InitLogger name config =>
    have h1 := initLogger_Inv L m name config "" h
    cases hr : (initLogger L m name config "").result with
    | ok =>
      simp only [Op.run, InitLogger, hr]
      exact Registry.Inv_mapValues _ closeAuto LogInstance.Good_closeAuto h1
    | error msg => simpa [Op.run, InitLogger, hr] using h1
    | panic => simpa [Op.run, InitLogger, hr] using h1
  | EnableLogger name enable =>
    cases hg : m.get name with
    | none => simpa [Op.run, EnableLogger, hg] using h
    | some inst =>
      have hgood := h.good_of_get hg
      cases hi : inst.initial with
      | false =>
        simp only [Op.run, EnableLogger, hg, hi, Bool.not_false, if_true]
        exact Registry.Inv_set m name _ ⟨fun hc => by simp at hc, fun hc => by simp [hi] at hc⟩ h
      | true =>
        simp only [Op.run, EnableLogger, hg, hi, Bool.not_true]
        exact Registry.Inv_set m name _ ⟨fun _ => rfl, fun _ => hgood.2 hi⟩ h
  | GetLogger name =>
    cases hg : m.get name <;> simpa [Op.run, GetLogger, hg] using h
  | UnregisterLogger name =>
    cases hg : m.get name with
    | none => simpa [Op.run, UnregisterLogger, hg] using h
    | some inst =>
      cases hl : inst.logger with
      | none => simpa [Op.run, UnregisterLogger, hg, hl] using h
      | some logger =>
        simp only [Op.run, UnregisterLogger, hg, hl, Registry.delete_set]
        exact Registry.Inv_delete m name h
  | Reopen =>
    simp only [Op.run, Reopen_mgr]
    exact Registry.Inv_mapValues m _ (LogInstance.Good_onEnabled _) h
  | SetLevelAll level =>
    simp only [Op.run, SetLevelAll_mgr]
    exact Registry.Inv_mapValues m _ (LogInstance.Good_onEnabled _) h
  | SetLevel name level =>
    cases hg : m.get name with
    | none => simpa [Op.run, SetLevel, hg] using h
    | some inst =>
      have hgood := h.good_of_get hg
      cases hl : inst.logger with
      | none => simpa [Op.run, SetLevel, hg, hl] using h
      | some logger =>
        simp only [Op.run, SetLevel, hg, hl]
        exact Registry.Inv_set m name _ ⟨hgood.1, fun _ => rfl⟩ h
  | Emit verb ctx format a =>
    obtain ⟨step, hstep⟩ := dispatch_mgr L verb m ctx format a
    simp only [Op.run, hstep]
    exact Registry.Inv_mapValues m _ (LogInstance.Good_onEnabled _) h
  | Close =>
    simp only [Op.run, Close_mgr]
    exact Registry.Inv_mapValues m _ (LogInstance.Good_onEnabled _) h

/-- Every table the program reaches from the empty one satisfies the invariant,
so it is `Valid`: distinct keys and a backend under every enabled entry. -/
theorem Reachable.inv (L : LogInterface σ) (m : Registry σ) (h : Reachable L m) : m.Inv := by
  induction h with
  | empty => exact Registry.Inv_nil
  | step m op _ ih => exact Inv_run L m op ih

theorem Reachable.isValid (L : LogInterface σ) (m : Registry σ) (h : Reachable L m) : m.Valid :=
  (Reachable.inv L m h).toValid

end Invariant

/-! ## Level changes through the registry -/

section LevelTheorems

variable {σ : Type}

/-- `SetLevelAll` runs the backend `SetLevel` on every entry with a backend and
`enable` set, and leaves every other entry as it was. -/
theorem SetLevelAll_get (L : LogInterface σ) (m : Registry σ) (level k : String) :
    (SetLevelAll L m level).mgr.get k =
      (m.get k).map (LogInstance.onEnabled (fun b => L.SetLevel b level)) := by
  rw [SetLevelAll_mgr, Registry.get_mapValues]

/-- `SetLevel` runs the backend `SetLevel` on the named entry whatever its
`enable` flag, and changes no other entry. -/
theorem SetLevel_get (L : LogInterface σ) (m : Registry σ) (name level : String)
    (inst : LogInstance σ) (logger : σ) (h : m.get name = some inst)
    (hl : inst.logger = some logger) :
    (SetLevel L m name level).result = Result.ok ∧
    (SetLevel L m name level).calls = [(name, Call.SetLevel level)] ∧
    (SetLevel L m name level).mgr.get name =
      some { inst with logger := some (L.SetLevel logger level) } ∧
    (∀ k : String, k ≠ name → (SetLevel L m name level).mgr.get k = m.get k) := by
  simp only [SetLevel, h, hl]
  exact ⟨trivial, trivial, Registry.get_set_self m name _ inst h,
    fun k hk => Registry.get_set_other m name k _ hk⟩

end LevelTheorems

/-- The demo table is a table the program reaches through its API: the package
initialisers, two registrations, `InitLogger("real", cfg)` and
`EnableLogger("console", true)`. -/
theorem demoMgr_eq :
    demoOps.foldl (fun m op => (op.run (consoleLog demoEnv) m).mgr) (packageInit demoEnv) =
      demoMgr := by
  decide

theorem Reachable.foldl {σ : Type} (L : LogInterface σ) (ops : List (Op σ)) (m : Registry σ)
    (h : Reachable L m) : Reachable L (ops.foldl (fun m op => (op.run L m).mgr) m) := by
  induction ops generalizing m with
  | nil => exact h
  | cons op rest ih => exact ih _ (Reachable.step m op h)

theorem packageInit_reachable (env : Env) : Reachable (consoleLog env) (packageInit env) :=
  Reachable.step _
    (Op.initLogger Console
      (some { Level := LevelDebug, Source := "", Service := "", Skip := 0 }) SourceAuto)
    (Reachable.step [] (Op.RegisterLogger Console (some NewConsoleLog)) Reachable.empty)

theorem demoMgr_reachable : Reachable (consoleLog demoEnv) demoMgr :=
  demoMgr_eq ▸ Reachable.foldl (consoleLog demoEnv) demoOps _ (packageInit_reachable demoEnv)

/-- C7 at the input `SetLevel("file", "none")` on the demo table, where "file" is
registered and disabled with threshold Debug: the call succeeds and the
threshold of "file" becomes None, it is not left unchanged; `SetLevelAll("none")`
on the same table does leave that entry as it was. -/
theorem SetLevel_changes_disabled_entry :
    demoMgr.get "file" =
      some { logger := some NewConsoleLog, enable := false, initial := false, source := "" } ∧
    NewConsoleLog.level = DebugLevel ∧
    (SetLevel (consoleLog demoEnv) demoMgr "file" "none").result = Result.ok ∧
    (SetLevel (consoleLog demoEnv) demoMgr "file" "none").mgr.get "file" =
      some { logger := some { level := NoneLevel, skip := 6, hostname := "", service := "" },
             enable := false, initial := false, source := "" } ∧
    (SetLevelAll (consoleLog demoEnv) demoMgr "none").mgr.get "file" = demoMgr.get "file" := by
  decide

/-! ## Reopen -/

section ReopenTheorems

variable {σ : Type}

theorem foldl_append_acc (l : List String) (acc : String) :
    l.foldl (fun r s => r ++ s) acc = acc ++ l.foldl (fun r s => r ++ s) "" := by
  induction l generalizing acc with
  | nil => simp
  | cons s rest ih =>
    simp only [List.foldl]
    rw [ih (acc ++ s), ih ("" ++ s), String.empty_append, String.append_assoc]

theorem join_cons (s : String) (l : List String) : String.join (s :: l) = s ++ String.join l := by
  simp only [String.join, List.foldl]
  rw [foldl_append_acc, String.empty_append]

theorem join_data (l : List String) : (String.join l).data = (l.map String.data).flatten := by
  induction l with
  | nil => rfl
  | cons s rest ih => simp [join_cons, ih]

theorem Contains_join_of_mem (l : List String) (s : String) (h : s ∈ l) :
    Contains (String.join l) s := by
  unfold Contains
  rw [join_data]
  exact List.infix_of_mem_flatten (List.mem_map_of_mem _ h)

theorem reopenFailure_eq_none_iff (L : LogInterface σ) (e : String × LogInstance σ) :
    reopenFailure L e = none ↔
      ∀ logger, e.2.logger = some logger → e.2.enable = true → (L.Reopen logger).2 = none := by
  unfold reopenFailure
  cases hl : e.2.logger with
  | none => simp
  | some logger =>
    cases he : e.2.enable with
    | false => simp
    | true =>
      cases hr : (L.Reopen logger).2 with
      | none => simp [hr]
      | some err => simp [hr]

theorem reopenFailure_ne_empty (L : LogInterface σ) (e : String × LogInstance σ) (seg : String)
    (h : reopenFailure L e = some seg) : seg.data ≠ [] := by
  unfold reopenFailure at h
  cases hl : e.2.logger with
  | none => simp [hl] at h
  | some logger =>
    rw [hl] at h
    cases he : e.2.enable with
    | false => simp [he] at h
    | true =>
      cases hr : (L.Reopen logger).2 with
      | none => simp [he, hr] at h
      | some err =>
        simp only [he, hr, Bool.not_true, Bool.false_eq_true, if_false, Option.some.injEq] at h
        rw [← h]
        simp only [String.data_append]
        intro hc
        have := congrArg List.length hc
        simp at this

theorem reopenLoop_calls (L : LogInterface σ) (m : Registry σ) (errMsg : String) :
    (reopenLoop L m errMsg).2.1 =
      (m.filter (fun e => e.2.reached)).map (fun e => (e.1, Call.Reopen)) := by
  induction m generalizing errMsg with
  | nil => rfl
  | cons e rest ih =>
    obtain ⟨k, v⟩ := e
    cases hl : v.logger with
    | none =>
      rcases hr : reopenLoop L rest errMsg with ⟨r, c, w⟩
      have := ih errMsg
      rw [hr] at this
      simp only at this
      simp [reopenLoop, hr, hl, LogInstance.reached, this]
    | some logger =>
      cases he : v.enable with
      | false =>
        rcases hr : reopenLoop L rest errMsg with ⟨r, c, w⟩
        have := ih errMsg
        rw [hr] at this
        simp only at this
        simp [reopenLoop, hr, hl, he, LogInstance.reached, this]
      | true =>
        simp only [reopenLoop, hl, he, Bool.not_true]
        generalize hmsg : (match (L.Reopen logger).2 with
          | some e => errMsg ++ ("logger: " ++ k ++ " reload failed, err:" ++ e ++ " \n")
          | none => errMsg) = msg
        rcases hr : reopenLoop L rest msg with ⟨r, c, w⟩
        have := ih msg
        rw [hr] at this
        simp only at this
        simp [hr, hl, he, LogInstance.reached, this]

theorem reopenLoop_errMsg (L : LogInterface σ) (m : Registry σ) (errMsg : String) :
    (reopenLoop L m errMsg).2.2 = errMsg ++ String.join (m.filterMap (reopenFailure L)) := by
  induction m generalizing errMsg with
  | nil => simp [reopenLoop, String.join]
  | cons e rest ih =>
    obtain ⟨k, v⟩ := e
    cases hl : v.logger with
    | none =>
      rcases hr : reopenLoop L rest errMsg with ⟨r, c, w⟩
      have := ih errMsg
      rw [hr] at this
      simp only at this
      simp [reopenLoop, hr, hl, reopenFailure, this]
    | some logger =>
      cases he : v.enable with
      | false =>
        rcases hr : reopenLoop L rest errMsg with ⟨r, c, w⟩
        have := ih errMsg
        rw [hr] at this
        simp only at this
        simp [reopenLoop, hr, hl, he, reopenFailure, this]
      | true =>
        cases hre : (L.Reopen logger).2 with
        | none =>
          rcases hr : reopenLoop L rest errMsg with ⟨r, c, w⟩
          have := ih errMsg
          rw [hr] at this
          simp only at this
          simp [reopenLoop, hr, hl, he, hre, reopenFailure, this]
        | some err =>
          have hstep : (reopenLoop L ((k, v) :: rest) errMsg).2.2 =
              (reopenLoop L rest
                (errMsg ++ ("logger: " ++ k ++ " reload failed, err:" ++ err ++ " \n"))).2.2 := by
            simp only [reopenLoop, hl, he, hre, Bool.not_true]
            rfl
          rw [hstep, ih]
          simp [hl, he, hre, reopenFailure, join_cons, String.append_assoc]

theorem Reopen_calls_eq (L : LogInterface σ) (m : Registry σ) :
    (Reopen L m).calls = (m.filter (fun e => e.2.reached)).map (fun e => (e.1, Call.Reopen)) := by
  rw [← reopenLoop_calls L m ""]
  rfl

theorem Reopen_result_eq (L : LogInterface σ) (m : Registry σ) :
    (Reopen L m).result = Result.error (String.join (m.filterMap (reopenFailure L))) := by
  have h : (Reopen L m).result = Result.error (reopenLoop L m "").2.2 := rfl
  rw [h, reopenLoop_errMsg, String.empty_append]

/-- The calls a loop records (one per reached pair, tagged with its key) are
pairwise distinct when the keys of the table are. -/
theorem nodup_reached_calls (m : Registry σ) (call : Call) (h : (m.map Prod.fst).Nodup) :
    ((m.filter (fun e => e.2.reached)).map (fun e => (e.1, call))).Nodup := by
  apply List.Nodup.of_map Prod.fst
  rw [List.map_map]
  exact List.Nodup.sublist (List.Sublist.map _ (List.filter_sublist _)) h

theorem join_eq_empty_iff (l : List String) : String.join l = "" ↔ ∀ s ∈ l, s.data = [] := by
  constructor
  · intro h s hs
    have hd := congrArg String.data h
    rw [join_data] at hd
    have : (l.map String.data).flatten = [] := hd
    rw [List.flatten_eq_nil_iff] at this
    exact this _ (List.mem_map_of_mem _ hs)
  · intro h
    apply String.ext
    rw [join_data]
    show (l.map String.data).flatten = []
    rw [List.flatten_eq_nil_iff]
    intro d hd
    obtain ⟨s, hs, rfl⟩ := List.mem_map.mp hd
    exact h s hs

/-- C11: `Reopen` calls the backend `Reopen` once on every pair of the table
that has a backend and is enabled, in table order and whatever the earlier
backends returned, and on no other pair; it always returns an error value; the
message is the concatenation of one segment per failed logger, naming it, so it
is empty exactly when every one of those backend calls succeeded; the flags of
every entry are as before. -/
theorem Reopen_aggregates_failures (L : LogInterface σ) (m : Registry σ) :
    (Reopen L m).calls =
      (m.filter (fun e => e.2.reached)).map (fun e => (e.1, Call.Reopen)) ∧
    ((m.map Prod.fst).Nodup → (Reopen L m).calls.Nodup) ∧
    (∀ (k : String) (c : Call), (k, c) ∈ (Reopen L m).calls →
      c = Call.Reopen ∧ ∃ v, (k, v) ∈ m ∧ v.logger.isSome = true ∧ v.enable = true) ∧
    (Reopen L m).result = Result.error (String.join (m.filterMap (reopenFailure L))) ∧
    ((Reopen L m).result = Result.error "" ↔
      ∀ e ∈ m, ∀ logger, e.2.logger = some logger → e.2.enable = true →
        (L.Reopen logger).2 = none) ∧
    (∀ e ∈ m, ∀ (logger : σ) (err : String), e.2.logger = some logger → e.2.enable = true →
      (L.Reopen logger).2 = some err →
        ∃ msg, (Reopen L m).result = Result.error msg ∧
          Contains msg ("logger: " ++ e.1 ++ " reload failed, err:" ++ err ++ " \n")) ∧
    (∀ k : String,
      ((Reopen L m).mgr.get k).map LogInstance.fields = (m.get k).map LogInstance.fields) := by
  refine ⟨Reopen_calls_eq L m, ?_, ?_, Reopen_result_eq L m, ?_, ?_, ?_⟩
  · intro h
    rw [Reopen_calls_eq]
    exact nodup_reached_calls m Call.Reopen h
  · intro k c hc
    rw [Reopen_calls_eq] at hc
    obtain ⟨e, he, heq⟩ := List.mem_map.mp hc
    obtain ⟨hmem, hreach⟩ := List.mem_filter.mp he
    simp only [Prod.mk.injEq] at heq
    simp only [LogInstance.reached, Bool.and_eq_true] at hreach
    exact ⟨heq.2.symm, e.2, by rw [← heq.1]; exact hmem, hreach.1, hreach.2⟩
  · rw [Reopen_result_eq]
    constructor
    · intro h e he
      have hj : String.join (m.filterMap (reopenFailure L)) = "" := by
        simpa using h
      rw [join_eq_empty_iff] at hj
      rw [← reopenFailure_eq_none_iff]
      cases hf : reopenFailure L e with
      | none => rfl
      | some seg =>
        exact absurd (hj seg (List.mem_filterMap.mpr ⟨e, he, hf⟩))
          (reopenFailure_ne_empty L e seg hf)
    · intro h
      have hnil : m.filterMap (reopenFailure L) = [] := by
        rw [List.filterMap_eq_nil_iff]
        intro e he
        exact (reopenFailure_eq_none_iff L e).mpr (h e he)
      rw [hnil]
      rfl
  · intro e he logger err hl hen hre
    refine ⟨_, Reopen_result_eq L m, ?_⟩
    apply Contains_join_of_mem
    apply List.mem_filterMap.mpr
    refine ⟨e, he, ?_⟩
    simp [reopenFailure, hl, hen, hre]
  · intro k
    rw [Reopen_mgr, Registry.get_mapValues]
    cases hg : m.get k with
    | none => rfl
    | some v =>
      simp only [Option.map_some', Option.some.injEq]
      unfold LogInstance.onEnabled LogInstance.fields
      cases hl : v.logger with
      | none => simp [hl]
      | some l =>
        simp only
        split_ifs <;> simp [hl]

/-- C11 on the demo table with a backend whose `Reopen` fails for "real" (the
first enabled entry): `Reopen` is still called on "console" after it, not on the
disabled "file", and the message names "real" only. -/
theorem Reopen_aggregates_failures_witness :
    (Reopen demoFlaky demoMgr).calls = [("real", Call.Reopen), (Console, Call.Reopen)] ∧
    (Reopen demoFlaky demoMgr).result =
      Result.error "logger: real reload failed, err:disk full \n" ∧
    (Reopen (consoleLog demoEnv) demoMgr).result = Result.error "" :=
  ⟨(Reopen_aggregates_failures demoFlaky demoMgr).1.trans (by decide),
    (Reopen_aggregates_failures demoFlaky demoMgr).2.2.2.1.trans (by decide),
    (Reopen_aggregates_failures (consoleLog demoEnv) demoMgr).2.2.2.2.1.mpr (by decide)⟩

end ReopenTheorems

/-! ## The dispatcher verbs -/

section FanOutTheorems

variable {σ : Type}

theorem rangeEnabled_calls_eq (step : σ → σ × List Write) (call : Call) (m : Registry σ) :
    (rangeEnabled step call m).2.1 =
      (m.filter (fun e => e.2.reached)).map (fun e => (e.1, call)) := by
  induction m with
  | nil => rfl
  | cons e rest ih =>
    obtain ⟨k, v⟩ := e
    rw [rangeEnabled_calls_cons, ih]
    cases hl : v.logger <;> cases he : v.enable <;> simp [LogInstance.reached, hl, he]

theorem rangeEnabled_writes_eq (step : σ → σ × List Write) (call : Call) (m : Registry σ) :
    (rangeEnabled step call m).2.2 =
      (m.map (fun e =>
        match e.2.logger with
        | some b => if e.2.enable then (step b).2 else []
        | none => [])).flatten := by
  induction m with
  | nil => rfl
  | cons e rest ih =>
    obtain ⟨k, v⟩ := e
    rcases hr : rangeEnabled step call rest with ⟨r, c, w⟩
    rw [hr] at ih
    simp only at ih
    cases hl : v.logger <;> cases he : v.enable <;> simp [rangeEnabled, hr, hl, he, ih]

theorem dispatch_eq (L : LogInterface σ) (verb : Verb) (m : Registry σ) (ctx : Context)
    (format : String) (a : List Value) :
    dispatch L verb m ctx format a =
      { mgr := (rangeEnabled (fun b => L.method verb b ctx format a)
          (verb.call ctx format a) m).1,
        calls := (rangeEnabled (fun b => L.method verb b ctx format a)
          (verb.call ctx format a) m).2.1,
        writes := (rangeEnabled (fun b => L.method verb b ctx format a)
          (verb.call ctx format a) m).2.2,
        result := Result.ok } := by
  cases verb <;> rfl

theorem onEnabled_fields (step : σ → σ) (v : LogInstance σ) :
    (v.onEnabled step).fields = v.fields := by
  unfold LogInstance.onEnabled LogInstance.fields
  cases hl : v.logger with
  | none => simp [hl]
  | some l =>
    simp only
    split_ifs <;> simp [hl]

theorem onEnabled_id (step : σ → σ) (hstep : ∀ b, step b = b) (v : LogInstance σ) :
    v.onEnabled step = v := by
  unfold LogInstance.onEnabled
  cases hl : v.logger with
  | none => rfl
  | some l =>
    simp only
    split_ifs
    · rfl
    · rw [hstep, ← hl]

/-- C12: each dispatcher verb invokes its backend method once, with the same
context, format and arguments, on every pair of the table whose backend is not
nil and whose `enable` flag is set, in table order, and on no other pair; the
console writes are those of these backend calls; it returns normally; the keys
and the backend presence, `enable`, `initial` and `source` of every entry are as
before, and the table is unchanged altogether when the backend method leaves its
backend unchanged. -/
theorem dispatch_fans_out (L : LogInterface σ) (verb : Verb) (m : Registry σ) (ctx : Context)
    (format : String) (a : List Value) :
    (dispatch L verb m ctx format a).calls =
      (m.filter (fun e => e.2.reached)).map (fun e => (e.1, verb.call ctx format a)) ∧
    ((m.map Prod.fst).Nodup → (dispatch L verb m ctx format a).calls.Nodup) ∧
    (∀ (k : String) (c : Call), (k, c) ∈ (dispatch L verb m ctx format a).calls ↔
      c = verb.call ctx format a ∧
        ∃ v, (k, v) ∈ m ∧ v.logger.isSome = true ∧ v.enable = true) ∧
    (dispatch L verb m ctx format a).writes =
      (m.map (fun e =>
        match e.2.logger with
        | some b => if e.2.enable then (L.method verb b ctx format a).2 else []
        | none => [])).flatten ∧
    (dispatch L verb m ctx format a).result = Result.ok ∧
    (dispatch L verb m ctx format a).mgr.map Prod.fst = m.map Prod.fst ∧
    (∀ k : String, ((dispatch L verb m ctx format a).mgr.get k).map LogInstance.fields =
      (m.get k).map LogInstance.fields) ∧
    ((∀ b : σ, (L.method verb b ctx format a).1 = b) →
      (dispatch L verb m ctx format a).mgr = m) := by
  rw [dispatch_eq]
  simp only
  refine ⟨rangeEnabled_calls_eq _ _ m, ?_, ?_, rangeEnabled_writes_eq _ _ m, trivial, ?_, ?_, ?_⟩
  · intro h
    rw [rangeEnabled_calls_eq]
    exact nodup_reached_calls m _ h
  · intro k c
    exact mem_rangeEnabled_calls _ _ m k c
  · rw [rangeEnabled_mgr, Registry.keys_mapValues]
  · intro k
    rw [rangeEnabled_mgr, Registry.get_mapValues]
    cases hg : m.get k with
    | none => rfl
    | some v => simp [onEnabled_fields]
  · intro h
    rw [rangeEnabled_mgr]
    conv_rhs => rw [← List.map_id m]
    apply List.map_congr_left
    intro e _
    rw [onEnabled_id _ h]
    rfl

/-- C12 on the demo table with the console backend: `Info` is forwarded to the
two enabled entries and to nothing else, and the table is unchanged. -/
theorem dispatch_fans_out_witness :
    (dispatch (consoleLog demoEnv) Verb.Info demoMgr demoCtx "x=%d" [Value.int 5]).calls =
      [("real", Call.Info demoCtx "x=%d" [Value.int 5]),
        (Console, Call.Info demoCtx "x=%d" [Value.int 5])] ∧
    (dispatch (consoleLog demoEnv) Verb.Info demoMgr demoCtx "x=%d" [Value.int 5]).mgr = demoMgr :=
  ⟨(dispatch_fans_out (consoleLog demoEnv) Verb.Info demoMgr demoCtx "x=%d"
      [Value.int 5]).1.trans (by decide),
    (dispatch_fans_out (consoleLog demoEnv) Verb.Info demoMgr demoCtx "x=%d"
      [Value.int 5]).2.2.2.2.2.2.2 (fun b => by
        simp only [LogInterface.method, consoleLog, ConsoleLog.Info]
        split_ifs <;> rfl)⟩

end FanOutTheorems

/-! ## The composed line, the trace id and `Init` of the console backend -/

theorem Contains.trans {a b c : String} (h1 : Contains a b) (h2 : Contains b c) :
    Contains a c :=
  List.IsInfix.trans h2 h1

theorem Contains_mid (p x s : String) : Contains (p ++ x ++ s) x := by
  unfold Contains
  exact ⟨p.data, s.data, by simp [String.data_append]⟩

theorem Contains_append_right (p x : String) : Contains (p ++ x) x := by
  unfold Contains
  exact ⟨p.data, [], by simp [String.data_append]⟩

theorem Contains_append_left (x s : String) : Contains (x ++ s) x := by
  unfold Contains
  exact ⟨[], s.data, by simp [String.data_append]⟩

theorem Contains_NewBrush (code text : String) : Contains (NewBrush code text) text := by
  have h : NewBrush code text = ("\x1b[" ++ code ++ "m") ++ text ++ "\x1b[0m" := rfl
  rw [h]
  exact Contains_mid _ _ _

theorem FormatLog_buffer (fields : List String) (acc : String) :
    fields.foldl (fun buffer v => ((buffer ++ "[") ++ v) ++ "] ") acc =
      acc ++ String.join (fields.map (fun f => "[" ++ f ++ "] ")) := by
  induction fields generalizing acc with
  | nil => simp [String.join]
  | cons f rest ih =>
    simp only [List.foldl, List.map, join_cons]
    rw [ih]
    simp [String.append_assoc]

theorem FormatLog_eq (body : String) (fields : List String) :
    FormatLog body fields =
      String.join (fields.map (fun f => "[" ++ f ++ "] ")) ++ body ++ "\n" := by
  unfold FormatLog
  rw [FormatLog_buffer, String.empty_append]

theorem Contains_FormatLog_body (body : String) (fields : List String) :
    Contains (FormatLog body fields) body := by
  rw [FormatLog_eq]
  exact Contains_mid _ _ _

theorem Contains_FormatLog_field (body : String) (fields : List String) (f : String)
    (h : f ∈ fields) : Contains (FormatLog body fields) f := by
  rw [FormatLog_eq, String.append_assoc]
  refine Contains.trans (Contains_append_left _ _) ?_
  refine Contains.trans
    (Contains_join_of_mem _ ("[" ++ f ++ "] ") (List.mem_map_of_mem _ h)) ?_
  exact Contains_mid _ _ _

/-- The line of a console verb that passes the threshold, with the brush and the
level text of its level. -/
theorem ConsoleLog.emit_line (env : Env) (c : ConsoleLog) (verb : Verb) (ctx : Context)
    (format : String) (a : List Value) (h : c.level ≤ verb.level) :
    (c.emit env verb ctx format a).2 =
      [(if verb.level ≥ WarnLevel then Stream.Stderr else Stream.Stdout,
        FormatLog
          (colors.getD verb.level id
            ("[" ++ (GetRuntimeInfo env c.skip).1 ++ ":" ++
              env.Base (GetRuntimeInfo env c.skip).2.1 ++ ":" ++
              toString (GetRuntimeInfo env c.skip).2.2 ++ "] " ++ Format env format a))
          [env.Now, c.service, c.hostname,
            colors.getD verb.level id (levelTextArray.getD verb.level ""), GetTraceId ctx])] := by
  cases verb
  · have h1 : ¬ c.level > FatalLevel := by simpa [Verb.level] using h
    simp only [ConsoleLog.emit, ConsoleLog.Fatal, h1, if_false]
    rfl
  · have h1 : ¬ c.level > WarnLevel := by simpa [Verb.level] using h
    simp only [ConsoleLog.emit, ConsoleLog.Warn, h1, if_false]
    rfl
  · have h1 : ¬ c.level > InfoLevel := by simpa [Verb.level] using h
    simp only [ConsoleLog.emit, ConsoleLog.Info, h1, if_false]
    rfl
  · have h1 : ¬ c.level > DebugLevel := by simpa [Verb.level] using h
    simp only [ConsoleLog.emit, ConsoleLog.Debug, h1, if_false]
    rfl

theorem colors_getD_level (verb : Verb) :
    ∃ code, colors.getD verb.level id = NewBrush code := by
  cases verb
  · exact ⟨"1;31", rfl⟩
  · exact ⟨"1;33", rfl⟩
  · exact ⟨"1;36", rfl⟩
  · exact ⟨"1;37", rfl⟩

theorem levelTextArray_getD_level (verb : Verb) :
    levelTextArray.getD verb.level "" =
      verb.text := by
  cases verb <;> rfl

/-- C13: `FormatLog(body, f1, ..., fn)` is the fields in order, each as `[f] `
with one space after it, then the body, then one newline.  A console verb that
passes the threshold writes the line `FormatLog` of the message with its call
site `[function:basefile:line] ` in front, wrapped in a colour, and the fields
timestamp, service, host name, coloured level text and trace id; so the line
contains the service name, the trace id, the level text of the verb and the
formatted message, and it ends with a newline. -/
theorem FormatLog_console_line (body : String) (fields : List String) (env : Env)
    (c : ConsoleLog) (verb : Verb) (ctx : Context) (format : String) (a : List Value)
    (h : c.level ≤ verb.level) :
    FormatLog body fields =
      String.join (fields.map (fun f => "[" ++ f ++ "] ")) ++ body ++ "\n" ∧
    ∃ (stream : Stream) (code line : String),
      (c.emit env verb ctx format a).2 = [(stream, line)] ∧
      line = FormatLog
        (NewBrush code
          ("[" ++ (GetRuntimeInfo env c.skip).1 ++ ":" ++
            env.Base (GetRuntimeInfo env c.skip).2.1 ++ ":" ++
            toString (GetRuntimeInfo env c.skip).2.2 ++ "] " ++ Format env format a))
        [env.Now, c.service, c.hostname,
          NewBrush code verb.text,
          GetTraceId ctx] ∧
      Contains line c.service ∧
      Contains line (GetTraceId ctx) ∧
      Contains line verb.text ∧
      Contains line (Format env format a) ∧
      ∃ pre, line = pre ++ "\n" := by
  refine ⟨FormatLog_eq body fields, ?_⟩
  obtain ⟨code, hcode⟩ := colors_getD_level verb
  have hline := ConsoleLog.emit_line env c verb ctx format a h
  rw [hcode, levelTextArray_getD_level] at hline
  refine ⟨_, code, _, hline, ?_, ?_, ?_, ?_, ?_, ?_⟩
  · rfl
  · exact Contains_FormatLog_field _ _ c.service (by simp)
  · exact Contains_FormatLog_field _ _ (GetTraceId ctx) (by simp)
  · exact Contains.trans (Contains_FormatLog_field _ _ (NewBrush code _) (by simp))
      (Contains_NewBrush _ _)
  · exact Contains.trans (Contains_FormatLog_body _ _)
      (Contains.trans (Contains_NewBrush _ _) (Contains_append_right _ _))
  · rw [FormatLog_eq]
    exact ⟨_, rfl⟩

/-- C13 on the scenario of the spec: a console backend with level "debug" and
service "svc1", `Debug` with a context carrying the trace id "t1" and a message
that formats to "x=5". -/
theorem FormatLog_console_line_witness :
    FormatLog "m" ["a", "b"] = "[a] [b] m\n" ∧
    ∃ (stream : Stream) (line : String),
      (ConsoleLog.emit { demoEnv with Sprintf := fun _ _ => "x=5" } Verb.Debug
        { demoAuto with service := "svc1" } demoCtx "x=%d" [Value.int 5]).2 = [(stream, line)] ∧
      Contains line "svc1" ∧ Contains line "t1" ∧ Contains line "DEBUG" ∧ Contains line "x=5" ∧
      ∃ pre, line = pre ++ "\n" :=
  have h := FormatLog_console_line "m" ["a", "b"] { demoEnv with Sprintf := fun _ _ => "x=5" }
    { demoAuto with service := "svc1" } Verb.Debug demoCtx "x=%d" [Value.int 5] (by decide)
  ⟨h.1.trans (by decide),
    h.2.elim fun stream h2 => h2.elim fun _ h3 => h3.elim fun line h4 =>
      ⟨stream, line, h4.1, h4.2.2.1, h4.2.2.2.1, h4.2.2.2.2.1, h4.2.2.2.2.2.1,
        h4.2.2.2.2.2.2⟩⟩

theorem stream_of_verb (verb : Verb) :
    (if verb.level ≥ WarnLevel then Stream.Stderr else Stream.Stdout) =
      (if verb = Verb.Warn ∨ verb = Verb.Fatal then Stream.Stderr else Stream.Stdout) := by
  cases verb <;> decide

theorem FormatLog_ends_newline (body : String) (fields : List String) :
    ∃ pre, FormatLog body fields = pre ++ "\n" :=
  ⟨_, rfl⟩

/-- C4: a console backend with threshold `c.level` writes exactly one line for
a verb whose level is at least the threshold and nothing for a verb below it.
The one write is the text `FormatLog` composes from the coloured message with
its call site and the fields timestamp, service, host name, coloured level text
and trace id, which ends with a newline; it goes to the error stream for Warn
and Fatal and to standard output for Debug and Info.  So threshold None writes
nothing for any verb and threshold Debug writes such a line for all four.  The
backend itself is left as it was. -/
theorem ConsoleLog_emit_threshold (env : Env) (c : ConsoleLog) (ctx : Context)
    (format : String) (a : List Value) :
    (∀ v : Verb, c.level ≤ v.level →
      ∃ line, (c.emit env v ctx format a).2 =
        [(if v = Verb.Warn ∨ v = Verb.Fatal then Stream.Stderr else Stream.Stdout, line)] ∧
        line = FormatLog
          (colors.getD v.level id
            ("[" ++ (GetRuntimeInfo env c.skip).1 ++ ":" ++
              env.Base (GetRuntimeInfo env c.skip).2.1 ++ ":" ++
              toString (GetRuntimeInfo env c.skip).2.2 ++ "] " ++ Format env format a))
          [env.Now, c.service, c.hostname, colors.getD v.level id v.text, GetTraceId ctx] ∧
        ∃ pre, line = pre ++ "\n") ∧
    (∀ v : Verb, v.level < c.level → (c.emit env v ctx format a).2 = []) ∧
    (c.level = NoneLevel → ∀ v : Verb, (c.emit env v ctx format a).2 = []) ∧
    (c.level = DebugLevel → ∀ v : Verb, ∃ stream pre,
      (c.emit env v ctx format a).2 = [(stream, pre ++ "\n")]) ∧
    (∀ v : Verb, (c.emit env v ctx format a).1 = c) := by
  have hle : ∀ v : Verb, c.level ≤ v.level →
      ∃ line, (c.emit env v ctx format a).2 =
        [(if v = Verb.Warn ∨ v = Verb.Fatal then Stream.Stderr else Stream.Stdout, line)] ∧
        line = FormatLog
          (colors.getD v.level id
            ("[" ++ (GetRuntimeInfo env c.skip).1 ++ ":" ++
              env.Base (GetRuntimeInfo env c.skip).2.1 ++ ":" ++
              toString (GetRuntimeInfo env c.skip).2.2 ++ "] " ++ Format env format a))
          [env.Now, c.service, c.hostname, colors.getD v.level id v.text, GetTraceId ctx] ∧
        ∃ pre, line = pre ++ "\n" := by
    intro v hv
    have hline := ConsoleLog.emit_line env c v ctx format a hv
    rw [stream_of_verb, levelTextArray_getD_level] at hline
    exact ⟨_, hline, rfl, FormatLog_ends_newline _ _⟩
  have hlt : ∀ v : Verb, v.level < c.level → (c.emit env v ctx format a).2 = [] := by
    intro v hv
    cases v
    · have h : c.level > FatalLevel := by simpa [Verb.level] using hv
      simp [ConsoleLog.emit, ConsoleLog.Fatal, h]
    · have h : c.level > WarnLevel := by simpa [Verb.level] using hv
      simp [ConsoleLog.emit, ConsoleLog.Warn, h]
    · have h : c.level > InfoLevel := by simpa [Verb.level] using hv
      simp [ConsoleLog.emit, ConsoleLog.Info, h]
    · have h : c.level > DebugLevel := by simpa [Verb.level] using hv
      simp [ConsoleLog.emit, ConsoleLog.Debug, h]
  refine ⟨hle, hlt, ?_, ?_, ?_⟩
  · intro hc v
    apply hlt
    rw [hc]
    cases v <;> decide
  · intro hc v
    obtain ⟨line, h, _, pre, hpre⟩ := hle v (by rw [hc]; exact Nat.zero_le _)
    exact ⟨_, pre, hpre ▸ h⟩
  · intro v
    cases v
    · simp only [ConsoleLog.emit, ConsoleLog.Fatal]; split_ifs <;> rfl
    · simp only [ConsoleLog.emit, ConsoleLog.Warn]; split_ifs <;> rfl
    · simp only [ConsoleLog.emit, ConsoleLog.Info]; split_ifs <;> rfl
    · simp only [ConsoleLog.emit, ConsoleLog.Debug]; split_ifs <;> rfl

/-- C4 on a backend with threshold Warn: `Info` writes nothing and `Warn`
writes one line, the composed text below, to the error stream. -/
theorem ConsoleLog_emit_threshold_witness :
    (demoConsole.emit demoEnv Verb.Info none "hidden" []).2 = [] ∧
    (demoConsole.emit demoEnv Verb.Warn none "shown" []).2 =
      [(Stream.Stderr,
        "[2024-05-06 07:08:09] [svc1] [host1] [\x1b[1;33mWARN\x1b[0m] [] " ++
          "\x1b[1;33m[main.run:main.go:42] shown\x1b[0m\n")] :=
  ⟨(ConsoleLog_emit_threshold demoEnv demoConsole none "hidden" []).2.1 Verb.Info (by decide),
    ((ConsoleLog_emit_threshold demoEnv demoConsole none "shown" []).1 Verb.Warn
      (by decide)).elim fun _ h => h.1.trans (by rw [h.2.1]; decide)⟩

theorem toString_int_eq_decimal (i : Int) : toString i = decimal i := by
  cases i with
  | ofNat m =>
    have h : (0 : Int) ≤ Int.ofNat m := Int.ofNat_nonneg m
    simp only [decimal, h, if_true]
    rfl
  | negSucc m =>
    have h : ¬ (0 : Int) ≤ Int.negSucc m := by
      intro hc
      exact absurd hc (by simp [Int.negSucc_lt_zero])
    simp only [decimal, h, if_false]
    rfl

/-- C14: `GetTraceId` returns a string for every context: "" for the nil
context and for a context without a value under "traceId"; the base-10 digits,
after a `-` when negative, for an `int` or an `int64` value; a string value
itself; the generic rendering of a value of any other type. -/
theorem GetTraceId_total (kv : List (String × Value)) :
    GetTraceId none = "" ∧
    (kv.lookup "traceId" = none → GetTraceId (some kv) = "") ∧
    (∀ i : Int, kv.lookup "traceId" = some (Value.int i) → GetTraceId (some kv) = decimal i) ∧
    (∀ i : Int, kv.lookup "traceId" = some (Value.int64 i) →
      GetTraceId (some kv) = decimal i) ∧
    (∀ s : String, kv.lookup "traceId" = some (Value.str s) → GetTraceId (some kv) = s) ∧
    (∀ shown : String, kv.lookup "traceId" = some (Value.other shown) →
      GetTraceId (some kv) = shown) ∧
    decimal 0 = "0" ∧ decimal 1234 = "1234" ∧ decimal (-56) = "-56" := by
  refine ⟨rfl, ?_, ?_, ?_, ?_, ?_, by decide, by decide, by decide⟩
  · intro h
    simp only [GetTraceId, TraceId, h]
  · intro i h
    simp only [GetTraceId, TraceId, h]
    exact toString_int_eq_decimal i
  · intro i h
    simp only [GetTraceId, TraceId, h]
    exact toString_int_eq_decimal i
  · intro s h
    simp only [GetTraceId, TraceId, h]
  · intro shown h
    simp only [GetTraceId, TraceId, h]

/-- C14 on three contexts: the test's string trace id, a negative `int` and a
context with another key only. -/
theorem GetTraceId_total_witness :
    GetTraceId (some [("traceId", Value.str "asdsdsdsd")]) = "asdsdsdsd" ∧
    GetTraceId (some [("user", Value.str "u"), ("traceId", Value.int (-56))]) = "-56" ∧
    GetTraceId (some [("user", Value.str "u")]) = "" :=
  ⟨(GetTraceId_total [("traceId", Value.str "asdsdsdsd")]).2.2.2.2.1 "asdsdsdsd" (by decide),
    ((GetTraceId_total [("user", Value.str "u"), ("traceId", Value.int (-56))]).2.2.1 (-56)
      (by decide)).trans (by decide),
    (GetTraceId_total [("user", Value.str "u")]).2.1 (by decide)⟩

/-- C15: when the host name resolves, console `Init` fails exactly for the
absent config.  `Init(nil)` returns the error `ConsoleLogInitFailed` and leaves
the backend as it was; for every config it returns no error and sets the level
to `LevelFromStr` of the config level (Info for a name that is not a level), the
service to the config service, the host name to the resolved one, and the skip
depth to the config skip when that is positive, keeping the previous depth (6 on
a new backend) otherwise. -/
theorem ConsoleLog_Init_fails_only_without_config (env : Env) (c : ConsoleLog)
    (hostname : String) (hh : env.Hostname = Except.ok hostname) :
    c.Init env none = (c, some ConsoleLogInitFailed) ∧
    (∀ config : Option LoggerConfig, (c.Init env config).2.isSome = true ↔ config = none) ∧
    (∀ config : LoggerConfig,
      (c.Init env (some config)).2 = none ∧
      (c.Init env (some config)).1.level = LevelFromStr config.Level ∧
      (c.Init env (some config)).1.service = config.Service ∧
      (c.Init env (some config)).1.hostname = hostname ∧
      (c.Init env (some config)).1.skip = (if config.Skip > 0 then config.Skip else c.skip)) ∧
    LevelFromStr "verbose" = InfoLevel ∧
    NewConsoleLog.skip = 6 := by
  have hsome : ∀ config : LoggerConfig,
      (c.Init env (some config)).2 = none ∧
      (c.Init env (some config)).1.level = LevelFromStr config.Level ∧
      (c.Init env (some config)).1.service = config.Service ∧
      (c.Init env (some config)).1.hostname = hostname ∧
      (c.Init env (some config)).1.skip = (if config.Skip > 0 then config.Skip else c.skip) := by
    intro config
    simp only [ConsoleLog.Init, hh]
    refine ⟨trivial, ?_, ?_, trivial, ?_⟩ <;> split_ifs <;> rfl
  refine ⟨rfl, ?_, hsome, by decide, by decide⟩
  intro config
  cases config with
  | none => simp [ConsoleLog.Init]
  | some config => simp [(hsome config).1]

/-- C15 on a new console backend: `Init` with the level "verbose" and skip 0
succeeds with level Info and skip 6. -/
theorem ConsoleLog_Init_fails_only_without_config_witness :
    (NewConsoleLog.Init demoEnv none).2 = some ConsoleLogInitFailed ∧
    (NewConsoleLog.Init demoEnv
      (some { Level := "verbose", Source := "", Service := "s", Skip := 0 })).2 = none ∧
    (NewConsoleLog.Init demoEnv
      (some { Level := "verbose", Source := "", Service := "s", Skip := 0 })).1.level = 1 :=
  have h := ConsoleLog_Init_fails_only_without_config demoEnv NewConsoleLog "host1" rfl
  ⟨congrArg Prod.snd h.1,
    (h.2.2.1 { Level := "verbose", Source := "", Service := "s", Skip := 0 }).1,
    (h.2.2.1 { Level := "verbose", Source := "", Service := "s", Skip := 0 }).2.1.trans
      (by decide)⟩

/-! ## Process start, colours, the invariant, failure atomicity, nil backends -/

theorem consoleLog_method (env : Env) (verb : Verb) (c : ConsoleLog) (ctx : Context)
    (format : String) (a : List Value) :
    (consoleLog env).method verb c ctx format a = c.emit env verb ctx format a := by
  cases verb <;> rfl

theorem dispatch_keys {σ : Type} (L : LogInterface σ) (verb : Verb) (m : Registry σ)
    (ctx : Context) (format : String) (a : List Value) :
    (dispatch L verb m ctx format a).mgr.map Prod.fst = m.map Prod.fst := by
  rw [dispatch_eq]
  simp only
  rw [rangeEnabled_mgr, Registry.keys_mapValues]

theorem dispatch_get_fields {σ : Type} (L : LogInterface σ) (verb : Verb) (m : Registry σ)
    (ctx : Context) (format : String) (a : List Value) (k : String) :
    ((dispatch L verb m ctx format a).mgr.get k).map LogInstance.fields =
      (m.get k).map LogInstance.fields := by
  rw [dispatch_eq]
  simp only
  rw [rangeEnabled_mgr, Registry.get_mapValues]
  cases hg : m.get k with
  | none => rfl
  | some v => simp [onEnabled_fields]

/-- A run of fan-out calls keeps the keys of the table and the flags of every
entry. -/
theorem emits_keep_fields {σ : Type} (L : LogInterface σ)
    (es : List (Verb × Context × String × List Value)) (m : Registry σ) :
    (es.foldl (fun m e => (dispatch L e.1 m e.2.1 e.2.2.1 e.2.2.2).mgr) m).map Prod.fst =
      m.map Prod.fst ∧
    ∀ k : String,
      ((es.foldl (fun m e => (dispatch L e.1 m e.2.1 e.2.2.1 e.2.2.2).mgr) m).get k).map
        LogInstance.fields = (m.get k).map LogInstance.fields := by
  induction es generalizing m with
  | nil => exact ⟨rfl, fun _ => rfl⟩
  | cons e rest ih =>
    simp only [List.foldl]
    have h := ih (dispatch L e.1 m e.2.1 e.2.2.1 e.2.2.2).mgr
    refine ⟨h.1.trans (dispatch_keys L _ m _ _ _), fun k => ?_⟩
    rw [h.2 k, dispatch_get_fields]

/-- A pair the dispatcher calls is enabled in the table, read by key. -/
theorem enabled_of_mem_dispatch_calls {σ : Type} (L : LogInterface σ) (verb : Verb)
    (m : Registry σ) (ctx : Context) (format : String) (a : List Value) (k : String) (c : Call)
    (hnd : (m.map Prod.fst).Nodup) (h : (k, c) ∈ (dispatch L verb m ctx format a).calls) :
    ∃ v, m.get k = some v ∧ v.enable = true := by
  rw [mem_dispatch_calls] at h
  obtain ⟨_, v, hmem, _, hen⟩ := h
  exact ⟨v, Registry.get_of_mem m k v hnd hmem, hen⟩

/-- After a successful `InitLogger` of another name, an entry with source "auto"
is disabled. -/
theorem InitLogger_disables_auto {σ : Type} (L : LogInterface σ) (m : Registry σ)
    (name k : String) (config : Option LoggerConfig) (v : LogInstance σ) (hv : m.Valid)
    (h : (InitLogger L m name config).result = Result.ok) (hk : k ≠ name)
    (hg : m.get k = some v) (hs : v.source = SourceAuto) :
    ((InitLogger L m name config).mgr.map Prod.fst).Nodup ∧
    ∃ v2, (InitLogger L m name config).mgr.get k = some v2 ∧ v2.enable = false := by
  obtain ⟨inst, logger, _, _, _, _, hmgr⟩ := InitLogger_ok_inv L m name config h
  constructor
  · rw [hmgr, Registry.keys_mapValues, Registry.keys_set]
    exact hv.1
  · refine ⟨closeAuto v, ?_, closeAuto_auto_enable v hs
      (hv.2 (k, v) (Registry.mem_of_get m k v hg))⟩
    rw [hmgr, Registry.get_mapValues, Registry.get_set_other m name k _ hk, hg]
    rfl

theorem packageInit_eq (env : Env) (hostname : String) (hh : env.Hostname = Except.ok hostname) :
    packageInit env =
      [(Console,
        { logger := some { level := DebugLevel, skip := 6, hostname := hostname, service := "" },
          enable := true, initial := true, source := SourceAuto })] := by
  have h1 : 0 < "auto".length := by decide
  have h2 : LevelFromStr "debug" = DebugLevel := by decide
  simp [packageInit, RegisterLogger, initLogger, Registry.get, Registry.insert, Registry.set,
    List.lookup, ConsoleLog.Init, consoleLog, hh, NewConsoleLog, LevelDebug, SourceAuto,
    LogDefSkipNum, Console, h1, h2]

section KeepDisabled

variable {σ : Type}

theorem initLogger_mgr_cases (L : LogInterface σ) (m : Registry σ) (name : String)
    (config : Option LoggerConfig) (source : String) :
    (initLogger L m name config source).mgr = m ∨
      ∃ inst, (initLogger L m name config source).mgr = m.set name inst := by
  cases hg : m.get name with
  | none => left; simp [initLogger, hg]
  | some inst =>
    cases hl : inst.logger with
    | none => left; simp [initLogger, hg, hl]
    | some logger =>
      cases he : (L.Init logger config).2 with
      | some e =>
        right
        simp only [initLogger, hg, hl, he]
        exact ⟨_, rfl⟩
      | none =>
        right
        simp only [initLogger, hg, hl, he]
        exact ⟨_, rfl⟩

theorem closeAuto_enable_false (v : LogInstance σ) (h : v.enable = false) :
    (closeAuto v).enable = false := by
  unfold closeAuto
  split_ifs <;> simp [h]

/-- Every call keeps the keys of the table distinct. -/
theorem keys_nodup_run (L : LogInterface σ) (m : Registry σ) (op : Op σ)
    (h : (m.map Prod.fst).Nodup) : ((op.run L m).mgr.map Prod.fst).Nodup := by
  cases op with
  | RegisterLogger name logger =>
    cases hg : m.get name with
    | some inst => simpa [Op.run, RegisterLogger, hg] using h
    | none =>
      simp only [Op.run, RegisterLogger, hg, Registry.insert, List.map, List.nodup_cons]
      exact ⟨Registry.not_mem_keys_of_get_none m name hg, h⟩
  | initLogger name config source =>
    rcases initLogger_mgr_cases L m name config source with h1 | ⟨inst, h1⟩
    · simpa [Op.run, h1] using h
    · simp only [Op.run, h1, Registry.keys_set]
      exact h
  | InitLogger name config =>
    have h0 : ((initLogger L m name config "").mgr.map Prod.fst).Nodup := by
      rcases initLogger_mgr_cases L m name config "" with h1 | ⟨inst, h1⟩
      · rw [h1]; exact h
      · rw [h1, Registry.keys_set]; exact h
    cases hr : (initLogger L m name config "").result with
    | ok =>
      simp only [Op.run, InitLogger, hr, Registry.keys_mapValues]
      exact h0
    | error msg => simpa [Op.run, InitLogger, hr] using h0
    | panic => simpa [Op.run, InitLogger, hr] using h0
  | EnableLogger name enable =>
    cases hg : m.get name with
    | none => simpa [Op.run, EnableLogger, hg] using h
    | some inst =>
      cases hi : inst.initial <;>
        simp only [Op.run, EnableLogger, hg, hi, Bool.not_false, Bool.not_true, if_true,
          Bool.false_eq_true, if_false, Registry.keys_set] <;> exact h
  | GetLogger name =>
    cases hg : m.get name <;> simpa [Op.run, GetLogger, hg] using h
  | UnregisterLogger name =>
    cases hg : m.get name with
    | none => simpa [Op.run, UnregisterLogger, hg] using h
    | some inst =>
      cases hl : inst.logger with
      | none => simpa [Op.run, UnregisterLogger, hg, hl] using h
      | some logger =>
        simp only [Op.run, UnregisterLogger, hg, hl, Registry.delete_set]
        exact List.Nodup.sublist (List.Sublist.map _ (List.filter_sublist _)) h
  | Reopen =>
    simp only [Op.run, Reopen_mgr, Registry.keys_mapValues]
    exact h
  | SetLevelAll level =>
    simp only [Op.run, SetLevelAll_mgr, Registry.keys_mapValues]
    exact h
  | SetLevel name level =>
    cases hg : m.get name with
    | none => simpa [Op.run, SetLevel, hg] using h
    | some inst =>
      cases hl : inst.logger with
      | none => simpa [Op.run, SetLevel, hg, hl] using h
      | some logger =>
        simp only [Op.run, SetLevel, hg, hl, Registry.keys_set]
        exact h
  | Emit verb ctx format a =>
    simp only [Op.run, dispatch_keys]
    exact h
  | Close =>
    simp only [Op.run, Close_mgr, Registry.keys_mapValues]
    exact h

theorem get_mapValues_enable_false (m : Registry σ) (f : LogInstance σ → LogInstance σ)
    (k : String) (hf : ∀ v : LogInstance σ, v.enable = false → (f v).enable = false)
    (h : ∀ v, m.get k = some v → v.enable = false) :
    ∀ v, Registry.get (m.map (fun e => (e.1, f e.2))) k = some v → v.enable = false := by
  intro v hv
  rw [Registry.get_mapValues] at hv
  cases hg : m.get k with
  | none => simp [hg] at hv
  | some v0 =>
    simp only [hg, Option.map_some', Option.some.injEq] at hv
    rw [← hv]
    exact hf v0 (h v0 hg)

theorem onEnabled_enable (step : σ → σ) (v : LogInstance σ) :
    (v.onEnabled step).enable = v.enable := by
  have h := onEnabled_fields step v
  simp only [LogInstance.fields, Prod.mk.injEq] at h
  exact h.2.1

theorem get_set_enable_false (m : Registry σ) (name k : String) (inst : LogInstance σ)
    (hi : k = name → inst.enable = false) (h : ∀ v, m.get k = some v → v.enable = false) :
    ∀ v, (m.set name inst).get k = some v → v.enable = false := by
  intro v hv
  by_cases hk : k = name
  · subst hk
    cases hg : m.get k with
    | none =>
      have hnone : (m.set k inst).get k = none := by
        have hkeys := Registry.not_mem_keys_of_get_none m k hg
        rw [← Registry.keys_set m k inst] at hkeys
        cases hg2 : (m.set k inst).get k with
        | none => rfl
        | some v2 =>
          exact absurd (List.mem_map.mpr ⟨(k, v2), Registry.mem_of_get _ k v2 hg2, rfl⟩) hkeys
      rw [hnone] at hv
      simp at hv
    | some old =>
      rw [Registry.get_set_self m k inst old hg] at hv
      simp only [Option.some.injEq] at hv
      rw [← hv]
      exact hi rfl
  · rw [Registry.get_set_other m name k inst hk] at hv
    exact h v hv

/-- A call other than `EnableLogger`, `initLogger` and `InitLogger` on the name
`k` leaves the entry `k` disabled (or absent) when it was. -/
theorem run_keeps_disabled (L : LogInterface σ) (m : Registry σ) (op : Op σ) (k : String)
    (hop : op.enables k = false) (h : ∀ v, m.get k = some v → v.enable = false) :
    ∀ v, (op.run L m).mgr.get k = some v → v.enable = false := by
  cases op with
  | RegisterLogger name logger =>
    cases hg : m.get name with
    | some inst => simpa [Op.run, RegisterLogger, hg] using h
    | none =>
      intro v hv
      simp only [Op.run, RegisterLogger, hg, Registry.insert, Registry.get_cons] at hv
      by_cases hk : k = name
      · simp only [hk, if_true, Option.some.injEq] at hv
        rw [← hv]
      · simp only [hk, if_false] at hv
        exact h v hv
  | initLogger name config source =>
    have hk : k ≠ name := by
      intro hc
      simp [Op.enables, hc] at hop
    rcases initLogger_mgr_cases L m name config source with h1 | ⟨inst, h1⟩
    · simpa [Op.run, h1] using h
    · simp only [Op.run, h1]
      exact get_set_enable_false m name k inst (fun hc => absurd hc hk) h
  | InitLogger name config =>
    have hk : k ≠ name := by
      intro hc
      simp [Op.enables, hc] at hop
    have h0 : ∀ v, (initLogger L m name config "").mgr.get k = some v → v.enable = false := by
      rcases initLogger_mgr_cases L m name config "" with h1 | ⟨inst, h1⟩
      · rw [h1]; exact h
      · rw [h1]
        exact get_set_enable_false m name k inst (fun hc => absurd hc hk) h
    cases hr : (initLogger L m name config "").result with
    | ok =>
      simp only [Op.run, InitLogger, hr]
      exact get_mapValues_enable_false _ closeAuto k closeAuto_enable_false h0
    | error msg => simpa [Op.run, InitLogger, hr] using h0
    | panic => simpa [Op.run, InitLogger, hr] using h0
  | EnableLogger name enable =>
    have hk : k ≠ name := by
      intro hc
      simp [Op.enables, hc] at hop
    cases hg : m.get name with
    | none => simpa [Op.run, EnableLogger, hg] using h
    | some inst =>
      cases hi : inst.initial <;>
        simp only [Op.run, EnableLogger, hg, hi, Bool.not_false, Bool.not_true, if_true,
          Bool.false_eq_true, if_false] <;>
        exact get_set_enable_false m name k _ (fun hc => absurd hc hk) h
  | GetLogger name =>
    cases hg : m.get name <;> simpa [Op.run, GetLogger, hg] using h
  | UnregisterLogger name =>
    cases hg : m.get name with
    | none => simpa [Op.run, UnregisterLogger, hg] using h
    | some inst =>
      cases hl : inst.logger with
      | none => simpa [Op.run, UnregisterLogger, hg, hl] using h
      | some logger =>
        simp only [Op.run, UnregisterLogger, hg, hl, Registry.delete_set]
        intro v hv
        by_cases hk : k = name
        · rw [hk, Registry.get_delete_self] at hv
          simp at hv
        · rw [Registry.get_delete_other m name k hk] at hv
          exact h v hv
  | Reopen =>
    simp only [Op.run, Reopen_mgr]
    exact get_mapValues_enable_false m _ k
      (fun v hv => by rw [onEnabled_enable]; exact hv) h
  | SetLevelAll level =>
    simp only [Op.run, SetLevelAll_mgr]
    exact get_mapValues_enable_false m _ k
      (fun v hv => by rw [onEnabled_enable]; exact hv) h
  | SetLevel name level =>
    cases hg : m.get name with
    | none => simpa [Op.run, SetLevel, hg] using h
    | some inst =>
      cases hl : inst.logger with
      | none => simpa [Op.run, SetLevel, hg, hl] using h
      | some logger =>
        simp only [Op.run, SetLevel, hg, hl]
        exact get_set_enable_false m name k _ (fun hc => h inst (hc ▸ hg)) h
  | Emit verb ctx format a =>
    intro v hv
    have hf := dispatch_get_fields L verb m ctx format a k
    simp only [Op.run] at hv
    rw [hv] at hf
    cases hg : m.get k with
    | none => simp [hg] at hf
    | some v0 =>
      rw [hg] at hf
      simp only [Option.map_some', Option.some.injEq, LogInstance.fields, Prod.mk.injEq] at hf
      rw [hf.2.1]
      exact h v0 hg
  | Close =>
    simp only [Op.run, Close_mgr]
    exact get_mapValues_enable_false m _ k
      (fun v hv => by rw [onEnabled_enable]; exact hv) h

/-- A run of calls none of which is `EnableLogger`, `initLogger` or `InitLogger`
on `k` keeps the keys distinct and the entry `k` disabled (or absent). -/
theorem runs_keep_disabled (L : LogInterface σ) (ops : List (Op σ)) (m : Registry σ) (k : String)
    (hops : ∀ op ∈ ops, op.enables k = false) (hnd : (m.map Prod.fst).Nodup)
    (h : ∀ v, m.get k = some v → v.enable = false) :
    ((ops.foldl (fun m op => (op.run L m).mgr) m).map Prod.fst).Nodup ∧
    ∀ v, (ops.foldl (fun m op => (op.run L m).mgr) m).get k = some v → v.enable = false := by
  induction ops generalizing m with
  | nil => exact ⟨hnd, h⟩
  | cons op rest ih =>
    simp only [List.foldl]
    exact ih (op.run L m).mgr (fun o ho => hops o (List.mem_cons_of_mem _ ho))
      (keys_nodup_run L m op hnd)
      (run_keeps_disabled L m op k (hops op (List.mem_cons_self _ _)) h)

end KeepDisabled

/-- C16 as stated fails after the silencing `InitLogger`.  From the start table
of the demo environment with "real" registered: after the first successful
`InitLogger("real", cfg)` a call `EnableLogger("console", true)` enables the
initialised "console" entry again and the next `Info` calls its backend; and
when `InitLogger("console", cfg)` came first, the entry no longer has source
"auto", so the first successful `InitLogger` of the other name "real" does not
disable it and `Info` still calls its backend. -/
theorem console_called_after_InitLogger_of_other :
    (InitLogger (consoleLog demoEnv) demoStart "real" (some demoWarnConfig)).result =
      Result.ok ∧
    (EnableLogger (InitLogger (consoleLog demoEnv) demoStart "real" (some demoWarnConfig)).mgr
      Console true).result = Result.ok ∧
    (Console, Call.Info none "i" []) ∈
      (dispatch (consoleLog demoEnv) Verb.Info
        (EnableLogger (InitLogger (consoleLog demoEnv) demoStart "real"
          (some demoWarnConfig)).mgr Console true).mgr none "i" []).calls ∧
    (InitLogger (consoleLog demoEnv) demoStart Console (some demoConfig)).result = Result.ok ∧
    (InitLogger (consoleLog demoEnv)
      (InitLogger (consoleLog demoEnv) demoStart Console (some demoConfig)).mgr "real"
      (some demoWarnConfig)).result = Result.ok ∧
    (Console, Call.Info none "i" []) ∈
      (dispatch (consoleLog demoEnv) Verb.Info
        (InitLogger (consoleLog demoEnv)
          (InitLogger (consoleLog demoEnv) demoStart Console (some demoConfig)).mgr "real"
          (some demoWarnConfig)).mgr none "i" []).calls := by
  decide

/-- C16, amended: when the host name resolves, the package initialisers
(register "console" with a new console backend, then `initLogger("console",
{Level: "debug"}, "auto")`) turn the empty table into the table with the one
entry "console": enabled, initialised, source "auto", threshold Debug.  On that
table each of the four verbs calls the console backend once and writes one line,
the text `FormatLog` composes, which ends with a newline.  And on any table of
the program where "console" still has source "auto", a successful `InitLogger`
of another name disables "console", and no fan-out call reaches it after any
sequence of calls none of which is `EnableLogger`, `initLogger` or `InitLogger`
on "console". -/
theorem packageInit_console_auto (env : Env) (hostname : String)
    (hh : env.Hostname = Except.ok hostname) :
    packageInit env =
      [("console",
        { logger := some { level := 0, skip := 6, hostname := hostname, service := "" },
          enable := true, initial := true, source := "auto" })] ∧
    (∀ (verb : Verb) (ctx : Context) (format : String) (a : List Value),
      (dispatch (consoleLog env) verb (packageInit env) ctx format a).calls =
        [("console", verb.call ctx format a)] ∧
      ∃ line, (dispatch (consoleLog env) verb (packageInit env) ctx format a).writes =
        [(if verb = Verb.Warn ∨ verb = Verb.Fatal then Stream.Stderr else Stream.Stdout,
          line)] ∧
        line = FormatLog
          (colors.getD verb.level id
            ("[" ++ (GetRuntimeInfo env 6).1 ++ ":" ++ env.Base (GetRuntimeInfo env 6).2.1 ++
              ":" ++ toString (GetRuntimeInfo env 6).2.2 ++ "] " ++ Format env format a))
          [env.Now, "", hostname, colors.getD verb.level id verb.text, GetTraceId ctx] ∧
        ∃ pre, line = pre ++ "\n") ∧
    (∀ (m : Registry ConsoleLog) (v : LogInstance ConsoleLog) (name : String)
      (config : Option LoggerConfig),
      m.Valid → m.get "console" = some v → v.source = "auto" → name ≠ "console" →
      (InitLogger (consoleLog env) m name config).result = Result.ok →
      (∃ v2, (InitLogger (consoleLog env) m name config).mgr.get "console" = some v2 ∧
        v2.enable = false) ∧
      ∀ ops : List (Op ConsoleLog), (∀ op ∈ ops, op.enables "console" = false) →
        ∀ (verb : Verb) (ctx : Context) (format : String) (a : List Value) (c : Call),
          ("console", c) ∉
            (dispatch (consoleLog env) verb
              (ops.foldl (fun m op => (op.run (consoleLog env) m).mgr)
                (InitLogger (consoleLog env) m name config).mgr) ctx format a).calls) := by
  have hstart := packageInit_eq env hostname hh
  refine ⟨hstart, ?_, ?_⟩
  · intro verb ctx format a
    have hlevel : ({ level := DebugLevel, skip := 6, hostname := hostname, service := "" } :
        ConsoleLog).level ≤ verb.level := Nat.zero_le _
    have hline := ConsoleLog.emit_line env _ verb ctx format a hlevel
    rw [stream_of_verb, levelTextArray_getD_level] at hline
    rw [hstart, dispatch_eq]
    simp only [rangeEnabled, Bool.not_true, Bool.false_eq_true, if_false, consoleLog_method,
      hline, List.append_nil]
    exact ⟨rfl, _, rfl, rfl, FormatLog_ends_newline _ _⟩
  · intro m v name config hv hg hs hname hok
    obtain ⟨hnd, v2, hg2, hen2⟩ := InitLogger_disables_auto (consoleLog env) m name "console"
      config v hv hok (Ne.symm hname) hg hs
    refine ⟨⟨v2, hg2, hen2⟩, ?_⟩
    intro ops hops verb ctx format a c hc
    have hdis : ∀ w, (InitLogger (consoleLog env) m name config).mgr.get "console" = some w →
        w.enable = false := by
      intro w hw
      rw [hg2] at hw
      simp only [Option.some.injEq] at hw
      rw [← hw]
      exact hen2
    obtain ⟨hnd2, hdis2⟩ := runs_keep_disabled (consoleLog env) ops _ "console" hops hnd hdis
    obtain ⟨v3, hg3, hen3⟩ := enabled_of_mem_dispatch_calls (consoleLog env) verb _ ctx format a
      "console" c hnd2 hc
    rw [hdis2 v3 hg3] at hen3
    exact absurd hen3 (by decide)

/-- C16, amended, in the demo environment: the start table, a `Debug` call on
it, and after registering and initialising "real" a `Warn` call that follows an
`Info` call, a `SetLevelAll`, a registration and an `EnableLogger` of another
entry. -/
theorem packageInit_console_auto_witness :
    packageInit demoEnv = [(Console, demoAutoInstance)] ∧
    (dispatch (consoleLog demoEnv) Verb.Debug (packageInit demoEnv) none "m" []).calls =
      [(Console, Call.Debug none "m" [])] ∧
    (∃ pre, (dispatch (consoleLog demoEnv) Verb.Debug (packageInit demoEnv) none "m" []).writes =
      [(Stream.Stdout, pre ++ "\n")]) ∧
    (Console, Call.Warn none "w" []) ∉
      (dispatch (consoleLog demoEnv) Verb.Warn
        (demoLaterOps.foldl (fun m op => (op.run (consoleLog demoEnv) m).mgr)
          (InitLogger (consoleLog demoEnv) demoStart "real" (some demoWarnConfig)).mgr)
        none "w" []).calls :=
  have h := packageInit_console_auto demoEnv "host1" rfl
  ⟨h.1, (h.2.1 Verb.Debug none "m" []).1,
    (h.2.1 Verb.Debug none "m" []).2.elim fun _ hl =>
      hl.2.2.elim fun pre hpre => ⟨pre, hpre ▸ hl.1⟩,
    (h.2.2 demoStart demoAutoInstance "real" (some demoWarnConfig) (by decide) (by decide) rfl
      (by decide) (by decide)).2 demoLaterOps (by decide) Verb.Warn none "w" [] _⟩

/-- C17 on one call of each verb in the demo environment: the `Debug` line is
wrapped in "1;37" (index 0 of the palette, labelled white), `Info` in "1;36"
(labelled debug), `Warn` in "1;33" (labelled info) and `Fatal` in "1;31"
(labelled warn); the code "1;32" labelled fatal is used by no verb. -/
theorem console_colours_shifted :
    (demoAuto.emit demoEnv Verb.Debug none "m" []).2 =
      [(Stream.Stdout,
        "[2024-05-06 07:08:09] [] [host1] [\x1b[1;37mDEBUG\x1b[0m] [] " ++
          "\x1b[1;37m[main.run:main.go:42] m\x1b[0m\n")] ∧
    (demoAuto.emit demoEnv Verb.Info none "m" []).2 =
      [(Stream.Stdout,
        "[2024-05-06 07:08:09] [] [host1] [\x1b[1;36mINFO\x1b[0m] [] " ++
          "\x1b[1;36m[main.run:main.go:42] m\x1b[0m\n")] ∧
    (demoAuto.emit demoEnv Verb.Warn none "m" []).2 =
      [(Stream.Stderr,
        "[2024-05-06 07:08:09] [] [host1] [\x1b[1;33mWARN\x1b[0m] [] " ++
          "\x1b[1;33m[main.run:main.go:42] m\x1b[0m\n")] ∧
    (demoAuto.emit demoEnv Verb.Fatal none "m" []).2 =
      [(Stream.Stderr,
        "[2024-05-06 07:08:09] [] [host1] [\x1b[1;31mFATAL\x1b[0m] [] " ++
          "\x1b[1;31m[main.run:main.go:42] m\x1b[0m\n")] ∧
    (∀ verb : Verb, colors.getD verb.level id "x" ≠ NewBrush "1;32" "x") := by
  refine ⟨by decide, by decide, by decide, by decide, fun verb => ?_⟩
  cases verb <;> decide

/-- C18: in every table reached from the empty one by any sequence of
`RegisterLogger`, `initLogger`, `InitLogger`, `EnableLogger`, `GetLogger`,
`UnregisterLogger`, `SetLevel`, `SetLevelAll`, `Reopen`, `Close` and the four
fan-out verbs, every entry with `enable = true` has `initial = true`. -/
theorem enabled_implies_initialized {σ : Type} (L : LogInterface σ) (m : Registry σ)
    (h : Reachable L m) :
    ∀ (k : String) (v : LogInstance σ), (k, v) ∈ m → v.enable = true → v.initial = true :=
  fun k v hmem hen => ((Reachable.inv L m h).2 (k, v) hmem).1 hen

/-- C18 on the demo table, which the API reaches from the package
initialisers. -/
theorem enabled_implies_initialized_witness :
    (Console, demoAutoInstance) ∈ demoMgr ∧ demoAutoInstance.initial = true :=
  ⟨by decide,
    enabled_implies_initialized (consoleLog demoEnv) demoMgr
      (demoMgr_eq ▸ Reachable.foldl (consoleLog demoEnv) demoOps _
        (packageInit_reachable demoEnv))
      Console demoAutoInstance (by decide) rfl⟩

section AtomicFailure

variable {σ : Type}

/-- C19: when `InitLogger(name, cfg)` returns an error (the name is absent, or
the backend `Init` returned an error), the table has the same keys and every
entry has the same `enable`, `initial` and `source` and the same backend
presence as before; so an enabled entry with source "auto" stays enabled. -/
theorem InitLogger_error_keeps_flags (L : LogInterface σ) (m : Registry σ) (name : String)
    (config : Option LoggerConfig) (msg : String)
    (h : (InitLogger L m name config).result = Result.error msg) :
    (InitLogger L m name config).mgr.map Prod.fst = m.map Prod.fst ∧
    (∀ k : String, ((InitLogger L m name config).mgr.get k).map LogInstance.fields =
      (m.get k).map LogInstance.fields) ∧
    (∀ (k : String) (v : LogInstance σ), m.get k = some v → v.source = SourceAuto →
      ∃ v2, (InitLogger L m name config).mgr.get k = some v2 ∧ v2.enable = v.enable ∧
        v2.initial = v.initial ∧ v2.source = v.source) ∧
    (m.get name = none → (InitLogger L m name config).mgr = m) := by
  have hmgr : (InitLogger L m name config).mgr = m ∨
      ∃ inst logger, m.get name = some inst ∧ inst.logger = some logger ∧
        (InitLogger L m name config).mgr =
          m.set name { inst with logger := some (L.Init logger config).1 } := by
    unfold InitLogger initLogger at h ⊢
    cases hg : m.get name with
    | none => left; simp
    | some inst =>
      cases hl : inst.logger with
      | none => left; simp [hl]
      | some logger =>
        cases he : (L.Init logger config).2 with
        | some e => right; exact ⟨inst, logger, rfl, hl, by simp [hl, he]⟩
        | none => simp [hg, hl, he] at h
  have hfields : ∀ k : String, ((InitLogger L m name config).mgr.get k).map LogInstance.fields =
      (m.get k).map LogInstance.fields := by
    intro k
    rcases hmgr with h1 | ⟨inst, logger, hg, hl, h1⟩
    · rw [h1]
    · rw [h1]
      by_cases hk : k = name
      · subst hk
        rw [Registry.get_set_self m k _ inst hg, hg]
        simp [LogInstance.fields, hl]
      · rw [Registry.get_set_other m name k _ hk]
  refine ⟨?_, hfields, ?_, ?_⟩
  · rcases hmgr with h1 | ⟨inst, logger, _, _, h1⟩
    · rw [h1]
    · rw [h1, Registry.keys_set]
  · intro k v hg _
    have hf := hfields k
    rw [hg] at hf
    cases hg2 : (InitLogger L m name config).mgr.get k with
    | none => simp [hg2] at hf
    | some v2 =>
      rw [hg2] at hf
      simp only [Option.map_some', Option.some.injEq, LogInstance.fields, Prod.mk.injEq] at hf
      exact ⟨v2, rfl, hf.2.1, hf.2.2.1, hf.2.2.2⟩
  · intro hg
    simp [InitLogger, initLogger, hg]

end AtomicFailure

/-- C19 on the demo table: `InitLogger("file", nil)` fails in the backend `Init`
and `InitLogger("ghost", cfg)` fails at the lookup; the auto-initialised
"console" entry stays enabled both times. -/
theorem InitLogger_error_keeps_flags_witness :
    (InitLogger (consoleLog demoEnv) demoMgr "file" none).result =
      Result.error ConsoleLogInitFailed ∧
    (∃ v2, (InitLogger (consoleLog demoEnv) demoMgr "file" none).mgr.get Console = some v2 ∧
      v2.enable = true ∧ v2.initial = true ∧ v2.source = SourceAuto) ∧
    (InitLogger (consoleLog demoEnv) demoMgr "ghost" (some demoConfig)).mgr = demoMgr :=
  ⟨by decide,
    (InitLogger_error_keeps_flags (consoleLog demoEnv) demoMgr "file" none ConsoleLogInitFailed
      (by decide)).2.2.1 Console demoAutoInstance (by decide) rfl,
    (InitLogger_error_keeps_flags (consoleLog demoEnv) demoMgr "ghost" (some demoConfig)
      ("not found logger[" ++ "ghost" ++ "]") (by decide)).2.2.2 (by decide)⟩

/-- C20 at the input `RegisterLogger("nilb", nil)` on the demo table: the
registration succeeds, and then `InitLogger("nilb", cfg)`, `SetLevel("nilb",
"warn")` and `UnregisterLogger("nilb")` each call a method on the nil backend and
panic, leaving the entry in the table; `SetLevelAll`, `Reopen`, `Close` and the
verbs skip the entry and return. -/
theorem nil_backend_panics :
    (RegisterLogger demoMgr "nilb" none).result = Result.ok ∧
    (InitLogger (consoleLog demoEnv) (RegisterLogger demoMgr "nilb" none).mgr "nilb"
      (some demoConfig)).result = Result.panic ∧
    (SetLevel (consoleLog demoEnv) (RegisterLogger demoMgr "nilb" none).mgr "nilb"
      "warn").result = Result.panic ∧
    (UnregisterLogger (consoleLog demoEnv) (RegisterLogger demoMgr "nilb" none).mgr
      "nilb").result = Result.panic ∧
    ((UnregisterLogger (consoleLog demoEnv) (RegisterLogger demoMgr "nilb" none).mgr
      "nilb").mgr.get "nilb").isSome = true ∧
    (SetLevelAll (consoleLog demoEnv) (RegisterLogger demoMgr "nilb" none).mgr
      "warn").result = Result.ok ∧
    (Close (consoleLog demoEnv) (RegisterLogger demoMgr "nilb" none).mgr).result = Result.ok ∧
    (dispatch (consoleLog demoEnv) Verb.Info (RegisterLogger demoMgr "nilb" none).mgr none "m"
      []).result = Result.ok := by
  decide

end Clog
